import Mathlib

/-!
Verification development for the embedded-bacnet wire codec.

The Rust sources are embedded shallowly:

* bytes are `Nat`s (a buffer is `List Nat`; well-formedness `< 256` is stated
  where a claim needs it);
* the read cursor (`Reader { index, end }`) is the structure `Rdr`, with the
  buffer passed alongside, and every read checks the declared end bound;
* fallible code returns `Except Error (α × Rdr)` (older modules, whose
  failures are process panics, use the `Error.panicked` constructor to mark
  an abort; newer modules return typed errors and additionally thread the
  cursor through failures, mirroring Rust's `?` on `&mut self.reader`);
* machine integer casts are explicit `% 2 ^ w`.
-/

/-- Error outcomes of a decode. Typed, recoverable errors mirror the repo's
`Error` enum (`BufferBounds`, `InvalidValue`, `InvalidVariant`,
`TagNotSupported`, `Unimplemented`, `Length`, `UnexpectedTag`); `panicked`
marks a Rust process abort (`panic!`, `assert!`, `unimplemented!`,
`unreachable!`, `unwrap` on a failure), which is not a recoverable value in
the source and is kept separate so that claims about "typed error, not an
abort" are statable. -/
inductive Error where
  | bufferBounds (msg : String)
  | invalidValue (msg : String)
  | invalidVariant (msg : String) (v : Nat)
  | tagNotSupported (msg : String)
  | unimplemented (msg : String)
  | lengthErr (msg : String)
  | unexpectedTag (msg : String)
  | panicked (msg : String)
deriving DecidableEq, Repr

/-- True exactly on the `panicked` constructor: the decode outcome is a
process abort, not a typed recoverable error. -/
def Error.isPanicked : Error → Bool
  | .panicked _ => true
  | _ => false

deriving instance DecidableEq for Except

/-- Read cursor over an externally owned byte region: `index` is the current
position, `endIdx` the declared end bound (`end` in the source; renamed since
`end` is a Lean keyword). -/
structure Rdr where
  index : Nat
  endIdx : Nat
deriving DecidableEq, Repr

/-- `Reader::eof`: the cursor has reached its declared end. -/
def Rdr.eof (r : Rdr) : Bool := r.endIdx ≤ r.index

/-- Result of an older-module decode step: either a typed outcome with the
advanced cursor, or a failure (whose cursor is unobservable, because in the
source every old-module failure aborts the process). -/
abbrev DecR (α : Type) := Except Error (α × Rdr)

/-- Sequencing of old-module decode steps (Rust `?` / straight-line code). -/
def bindD {α β : Type} (m : DecR α) (k : α → Rdr → DecR β) : DecR β :=
  match m with
  | .error e => .error e
  | .ok (a, r) => k a r

/-- Modelled from the spec: the old read cursor's `read_byte`
(`common/helper.rs`, not under `src/`): reads one byte, advancing by one,
and fails (a panic in the source) rather than reading past the declared
end. -/
def readByteP (buf : List Nat) (r : Rdr) : DecR Nat :=
  if r.index < r.endIdx then
    .ok (buf.getD r.index 0, ⟨r.index + 1, r.endIdx⟩)
  else
    .error (.panicked "read_byte attempt to read past end of buffer")

/-- Modelled from the spec: the old read cursor's `read_bytes::<N>` /
`read_slice` (`common/helper.rs`, not under `src/`): reads `n` bytes after an
upfront bound check, advancing by `n`, and fails (a panic in the source)
rather than reading past the declared end. -/
def readBytesP (buf : List Nat) (n : Nat) (r : Rdr) : DecR (List Nat) :=
  if r.index + n ≤ r.endIdx then
    .ok ((buf.drop r.index).take n, ⟨r.index + n, r.endIdx⟩)
  else
    .error (.panicked "read_bytes attempt to read past end of buffer")

/-- Big-endian value of a byte list (`u16::from_be_bytes` /
`u32::from_be_bytes` and friends). -/
def beVal (bs : List Nat) : Nat := bs.foldl (fun a b => a * 256 + b) 0

/-- The two big-endian bytes of a value below `2 ^ 16` (`u16::to_be_bytes`). -/
def be16 (v : Nat) : List Nat := [v / 256 % 256, v % 256]

/-- The four big-endian bytes of a value below `2 ^ 32` (`u32::to_be_bytes`). -/
def be32 (v : Nat) : List Nat :=
  [v / 16777216 % 256, v / 65536 % 256, v / 256 % 256, v % 256]

-- ## Tag codec (`src/common/tag.rs`)

/-- `ApplicationTagNumber`: the sixteen application tag type discriminants. -/
inductive ApplicationTagNumber where
  | null | boolean | unsignedInt | signedInt | real | double
  | octetString | characterString | bitString | enumerated
  | date | time | objectId | reserve1 | reserve2 | reserve3
deriving DecidableEq, Repr

/-- `impl From<u8> for ApplicationTagNumber`: the match over `0..=15`;
`none` is the `unreachable!()` default arm. -/
def ApplicationTagNumber.fromU8 (n : Nat) : Option ApplicationTagNumber :=
  if n = 0 then some .null
  else if n = 1 then some .boolean
  else if n = 2 then some .unsignedInt
  else if n = 3 then some .signedInt
  else if n = 4 then some .real
  else if n = 5 then some .double
  else if n = 6 then some .octetString
  else if n = 7 then some .characterString
  else if n = 8 then some .bitString
  else if n = 9 then some .enumerated
  else if n = 10 then some .date
  else if n = 11 then some .time
  else if n = 12 then some .objectId
  else if n = 13 then some .reserve1
  else if n = 14 then some .reserve2
  else if n = 15 then some .reserve3
  else none

/-- The numeric value of an application tag number (`*num as u8`). -/
def ApplicationTagNumber.toU8 : ApplicationTagNumber → Nat
  | .null => 0 | .boolean => 1 | .unsignedInt => 2 | .signedInt => 3
  | .real => 4 | .double => 5 | .octetString => 6 | .characterString => 7
  | .bitString => 8 | .enumerated => 9 | .date => 10 | .time => 11
  | .objectId => 12 | .reserve1 => 13 | .reserve2 => 14 | .reserve3 => 15

/-- `TagNumber` of `src/common/tag.rs`: application or context-specific. -/
inductive TagNumber where
  | application (n : ApplicationTagNumber)
  | contextSpecific (n : Nat)
deriving DecidableEq, Repr

/-- `Tag`: a tag number together with its unsigned 32-bit length-or-value
field. -/
structure Tag where
  number : TagNumber
  value : Nat
deriving DecidableEq, Repr

/-- The message of the `unreachable!()` arm of
`impl From<u8> for ApplicationTagNumber`. -/
def unreachableTagMsg : String := "unreachable: tag_number is only 4 bits"

/-- `Tag::encode`, as the list of bytes appended to the buffer. Byte 0 holds
the tag number nibble (or `0xF` plus an extra byte), the class bit, and the
length/value code; values above 4 use the extended-value forms. This mirrors
the source exactly, including its choice of the bytes that follow the
`|= 5` marker. -/
def Tag.encodeBytes (t : Tag) : List Nat :=
  let (b0num, numExtra) :=
    match t.number with
    | .application num => (num.toU8 <<< 4, ([] : List Nat))
    | .contextSpecific num =>
        if num ≤ 14 then ((num <<< 4) ||| 0b1000, ([] : List Nat))
        else (0xF0 ||| 0b1000, [num])
  if t.value ≤ 4 then
    (b0num ||| t.value) :: numExtra
  else
    let b0 := b0num ||| 5
    if t.value ≤ 253 then
      b0 :: numExtra ++ [t.value]
    else if t.value < 65535 then
      b0 :: numExtra ++ [t.value % 256] ++ be16 t.value
    else
      b0 :: numExtra ++ [t.value % 256] ++ be32 (t.value % 4294967296)

/-- `Tag::encode`: append the encoding to the write buffer. -/
def Tag.encode (t : Tag) (buffer : List Nat) : List Nat :=
  buffer ++ t.encodeBytes

/-- `is_extended_tag_number(byte0)`. -/
def isExtendedTagNumber (byte0 : Nat) : Bool := byte0 &&& 0xF0 == 0xF0

/-- `is_extended_value(byte0)`. -/
def isExtendedValue (byte0 : Nat) : Bool := byte0 &&& 0x07 == 0x05

/-- `is_context_specific(byte0)`. -/
def isContextSpecific (byte0 : Nat) : Bool := byte0 &&& 0x08 == 0x08

/-- `is_opening_tag(byte0)`. -/
def isOpeningTag (byte0 : Nat) : Bool := byte0 &&& 0x07 == 0x06

/-- `is_closing_tag(byte0)`. -/
def isClosingTag (byte0 : Nat) : Bool := byte0 &&& 0x07 == 0x07

/-- `decode_tag_number`: read byte 0, extract the class and the tag number
(reading one extra byte when the extended-tag-number pattern is set), and
return byte 0 alongside for reuse. The `none` arm of
`ApplicationTagNumber::from` is the source's `unreachable!()`. -/
def decodeTagNumber (buf : List Nat) (r : Rdr) : DecR (TagNumber × Nat) :=
  bindD (readByteP buf r) fun byte0 r =>
    if isContextSpecific byte0 then
      if isExtendedTagNumber byte0 then
        bindD (readByteP buf r) fun num r =>
          .ok ((.contextSpecific num, byte0), r)
      else
        .ok ((.contextSpecific (byte0 >>> 4), byte0), r)
    else
      match ApplicationTagNumber.fromU8 (byte0 >>> 4) with
      | some num => .ok ((.application num, byte0), r)
      | none => .error (.panicked unreachableTagMsg)

/-- `Tag::decode`: decode the tag number, then the value — one extra byte on
the extended-value code, with `254`/`255` announcing a 2- or 4-byte
big-endian value; opening and closing codes carry value 0; otherwise the low
three bits are the value. -/
def Tag.decode (buf : List Nat) (r : Rdr) : DecR Tag :=
  bindD (decodeTagNumber buf r) fun (number, byte0) r =>
    if isExtendedValue byte0 then
      bindD (readByteP buf r) fun byte r =>
        if byte == 255 then
          bindD (readBytesP buf 4 r) fun bytes r =>
            .ok (⟨number, beVal bytes⟩, r)
        else if byte == 254 then
          bindD (readBytesP buf 2 r) fun bytes r =>
            .ok (⟨number, beVal bytes⟩, r)
        else
          .ok (⟨number, byte⟩, r)
    else if isOpeningTag byte0 || isClosingTag byte0 then
      .ok (⟨number, 0⟩, r)
    else
      .ok (⟨number, byte0 &&& 0x07⟩, r)

-- ## C1 and C2: the tag encoder omits the extended-value marker bytes

/-- **C1.** The claim states that `Tag::encode` then `Tag::decode` reproduces
every tag exactly and always picks the shortest valid wire form. The code
violates this: for a context-specific tag number 1 with value 300,
`Tag::encode` writes `value as u8` (`0x2C`) where the 2-byte extended-value
marker `254` belongs, so `Tag::decode` (which requires the `254`/`255`
markers its own comments describe) reads back value 44, not 300. -/
theorem c1_roundtrip_broken :
    Tag.decode (Tag.encodeBytes ⟨.contextSpecific 1, 300⟩)
        ⟨0, (Tag.encodeBytes ⟨.contextSpecific 1, 300⟩).length⟩
      = .ok (⟨.contextSpecific 1, 44⟩, ⟨2, 4⟩)
    ∧ (⟨.contextSpecific 1, 44⟩ : Tag) ≠ ⟨.contextSpecific 1, 300⟩ := by
  decide

/-- **C2.** The claim states that encoding a context-specific tag numbered 1
with value 300 yields `[0x1D, 0xFE, 0x01, 0x2C]`. The code instead writes
`self.value as u8` (`0x2C = 44`) in place of the extended-value marker byte
`0xFE = 254`, producing `[0x1D, 0x2C, 0x01, 0x2C]`. -/
theorem c2_encode_bytes :
    Tag.encodeBytes ⟨.contextSpecific 1, 300⟩ = [0x1D, 0x2C, 0x01, 0x2C]
    ∧ ([0x1D, 0x2C, 0x01, 0x2C] : List Nat) ≠ [0x1D, 0xFE, 0x01, 0x2C] := by
  decide

-- ## C10: the unreachable arm of `From<u8> for ApplicationTagNumber`

/-- Bytes extracted from a well-formed `u8` buffer are below 256. -/
theorem getD_lt_256 {buf : List Nat} (hwf : ∀ b ∈ buf, b < 256) (i : Nat) :
    buf.getD i 0 < 256 := by
  rcases h : buf[i]? with _ | b
  · simp [List.getD, h]
  · have hb : b ∈ buf := List.getElem?_mem h
    simpa [List.getD, h] using hwf b hb

/-- The `From<u8>` match is total on four-bit inputs. -/
theorem fromU8_isSome_of_lt_16 {n : Nat} (h : n < 16) :
    (ApplicationTagNumber.fromU8 n).isSome := by
  interval_cases n <;> decide

/-- `read_byte` on an in-bounds cursor yields the byte at the cursor. -/
theorem readByteP_pos (buf : List Nat) {r : Rdr} (h : r.index < r.endIdx) :
    readByteP buf r = .ok (buf.getD r.index 0, ⟨r.index + 1, r.endIdx⟩) := by
  simp [readByteP, h]

/-- `read_byte` at or past the declared end fails. -/
theorem readByteP_neg (buf : List Nat) {r : Rdr} (h : ¬r.index < r.endIdx) :
    readByteP buf r
      = .error (.panicked "read_byte attempt to read past end of buffer") := by
  simp [readByteP, h]

/-- `bindD` passes an ok result to the continuation. -/
theorem bindD_ok {α β : Type} (a : α) (r : Rdr) (k : α → Rdr → DecR β) :
    bindD (.ok (a, r)) k = k a r := rfl

/-- `bindD` propagates a failure. -/
theorem bindD_error {α β : Type} (e : Error) (k : α → Rdr → DecR β) :
    bindD (.error e) k = .error e := rfl

/-- `decode_tag_number` never produces the unreachable-arm panic on a
well-formed byte buffer. -/
theorem decodeTagNumber_no_unreachable (buf : List Nat)
    (hwf : ∀ b ∈ buf, b < 256) (r : Rdr) :
    decodeTagNumber buf r ≠ .error (.panicked unreachableTagMsg) := by
  by_cases hlt : r.index < r.endIdx
  · have hb : buf.getD r.index 0 < 256 := getD_lt_256 hwf r.index
    rw [decodeTagNumber, readByteP_pos buf hlt, bindD_ok]
    set b0 := buf.getD r.index 0 with hb0
    by_cases hctx : isContextSpecific b0
    · by_cases hext : isExtendedTagNumber b0
      · rw [if_pos hctx, if_pos hext]
        by_cases hlt2 : r.index + 1 < r.endIdx
        · rw [readByteP_pos buf (r := ⟨r.index + 1, r.endIdx⟩) hlt2, bindD_ok]
          simp
        · rw [readByteP_neg buf (r := ⟨r.index + 1, r.endIdx⟩) hlt2, bindD_error]
          simp [unreachableTagMsg]
      · rw [if_pos hctx, if_neg hext]
        simp
    · rw [if_neg hctx]
      have h16 : b0 >>> 4 < 16 := by
        have hdiv : b0 >>> 4 = b0 / 16 := by
          rw [Nat.shiftRight_eq_div_pow]
        rw [hdiv]; omega
      obtain ⟨num, hnum⟩ := Option.isSome_iff_exists.mp (fromU8_isSome_of_lt_16 h16)
      rw [hnum]
      simp
  · rw [decodeTagNumber, readByteP_neg buf hlt, bindD_error]
    simp [unreachableTagMsg]

/-- **C10.** `decode_tag_number` only ever hands `ApplicationTagNumber::from`
the high nibble of a byte (a value in 0–15), so the `unreachable!()` arm is
never hit: on a well-formed byte buffer, neither `decode_tag_number` nor any
`Tag::decode` built on it can produce the unreachable-arm panic. -/
theorem c10_unreachable_arm_never_hit (buf : List Nat) (r : Rdr)
    (hwf : ∀ b ∈ buf, b < 256) :
    decodeTagNumber buf r ≠ .error (.panicked unreachableTagMsg)
    ∧ Tag.decode buf r ≠ .error (.panicked unreachableTagMsg) := by
  refine ⟨decodeTagNumber_no_unreachable buf hwf r, ?_⟩
  rw [Tag.decode]
  rcases hd : decodeTagNumber buf r with e | ⟨⟨number, byte0⟩, r'⟩
  · rw [bindD_error]
    have hne := decodeTagNumber_no_unreachable buf hwf r
    rw [hd] at hne
    intro hcontra
    have he : e = .panicked unreachableTagMsg := by injection hcontra
    exact hne (by rw [he])
  · rw [bindD_ok]
    dsimp only
    by_cases hev : isExtendedValue byte0
    · rw [if_pos hev]
      by_cases hlt2 : r'.index < r'.endIdx
      · rw [readByteP_pos buf hlt2, bindD_ok]
        set b1 := buf.getD r'.index 0 with hb1
        by_cases h255 : b1 == 255
        · rw [if_pos h255]
          rw [readBytesP]
          split
          · rw [bindD_ok]; simp
          · rw [bindD_error]; simp [unreachableTagMsg]
        · rw [if_neg h255]
          by_cases h254 : b1 == 254
          · rw [if_pos h254]
            rw [readBytesP]
            split
            · rw [bindD_ok]; simp
            · rw [bindD_error]; simp [unreachableTagMsg]
          · rw [if_neg h254]
            simp
      · rw [readByteP_neg buf hlt2, bindD_error]
        simp [unreachableTagMsg]
    · rw [if_neg hev]
      by_cases hoc : isOpeningTag byte0 || isClosingTag byte0
      · rw [if_pos hoc]; simp
      · rw [if_neg hoc]; simp

/-- **C10 witness.** The concrete application tag byte `0x24` (and the
wrapped `Tag::decode` on it) does not hit the unreachable arm. -/
theorem c10_unreachable_arm_never_hit_witness :
    decodeTagNumber [0x24, 0, 0, 0, 1] ⟨0, 5⟩ ≠ .error (.panicked unreachableTagMsg)
    ∧ Tag.decode [0x24, 0, 0, 0, 1] ⟨0, 5⟩ ≠ .error (.panicked unreachableTagMsg) :=
  c10_unreachable_arm_never_hit [0x24, 0, 0, 0, 1] ⟨0, 5⟩ (by decide)

-- ## Newer-module cursor and tag codec

/-- `BACNET_ARRAY_ALL`: the reserved sentinel meaning "entire array". -/
def BACNET_ARRAY_ALL : Nat := 4294967295

/-- `ObjectId`: a 10-bit object type and a 22-bit instance id. -/
structure ObjectId where
  objectType : Nat
  id : Nat
deriving DecidableEq, Repr

/-- Sequencing for newer-module decode steps: failures carry the cursor along
(Rust's `?` returns early while `&mut self.reader` keeps whatever position the
failing step left). -/
def bindP {α β : Type} (m : Except Error α × Rdr) (k : α → Rdr → Except Error β × Rdr) :
    Except Error β × Rdr :=
  match m with
  | (.error e, r) => (.error e, r)
  | (.ok a, r) => k a r

namespace V2

/-- Modelled from the spec: the newer bounded cursor's fallible `read_byte`
(the `Result`-returning `common/io.rs` revision used by `read_range.rs` is
not under `src/`): one byte, advancing by one, with a typed `BufferBounds`
failure instead of reading past the declared end. -/
def readByte (buf : List Nat) (r : Rdr) : Except Error Nat × Rdr :=
  if r.index < r.endIdx then
    (.ok (buf.getD r.index 0), ⟨r.index + 1, r.endIdx⟩)
  else
    (.error (.bufferBounds "read_byte"), r)

/-- Modelled from the spec: the newer cursor's fallible `read_bytes` /
`read_slice`: `n` bytes after an upfront bound check, a typed `BufferBounds`
failure otherwise. -/
def readBytes (buf : List Nat) (n : Nat) (r : Rdr) : Except Error (List Nat) × Rdr :=
  if r.index + n ≤ r.endIdx then
    (.ok ((buf.drop r.index).take n), ⟨r.index + n, r.endIdx⟩)
  else
    (.error (.bufferBounds "read_bytes"), r)

/-- `TagNumber` of the newer tag module (not under `src/`): opening and
closing context tags are distinguished variants. Modelled from the spec. -/
inductive TagNumber where
  | application (n : ApplicationTagNumber)
  | contextSpecific (n : Nat)
  | contextSpecificOpening (n : Nat)
  | contextSpecificClosing (n : Nat)
deriving DecidableEq, Repr

/-- The newer `Tag`: number plus unsigned 32-bit value field. -/
structure Tag where
  number : TagNumber
  value : Nat
deriving DecidableEq, Repr

/-- Modelled from the spec: the newer `Tag::encode` wire form (tag byte 0 is
number nibble, class bit, length/value code; opening and closing tags use
codes 6 and 7 and carry no value; values above 4 use the extended form with
marker `254` for 2-byte and `255` for 4-byte big-endian lengths, always the
smallest form that fits). -/
def Tag.encodeBytes (t : Tag) : List Nat :=
  let (b0num, numExtra) :=
    match t.number with
    | .application n => (n.toU8 <<< 4, ([] : List Nat))
    | .contextSpecific n =>
        if n ≤ 14 then ((n <<< 4) ||| 0b1000, ([] : List Nat)) else (0xF8, [n])
    | .contextSpecificOpening n =>
        if n ≤ 14 then ((n <<< 4) ||| 0b1000, ([] : List Nat)) else (0xF8, [n])
    | .contextSpecificClosing n =>
        if n ≤ 14 then ((n <<< 4) ||| 0b1000, ([] : List Nat)) else (0xF8, [n])
  match t.number with
  | .contextSpecificOpening _ => (b0num ||| 6) :: numExtra
  | .contextSpecificClosing _ => (b0num ||| 7) :: numExtra
  | _ =>
    if t.value ≤ 4 then (b0num ||| t.value) :: numExtra
    else if t.value ≤ 253 then (b0num ||| 5) :: numExtra ++ [t.value]
    else if t.value ≤ 65535 then (b0num ||| 5) :: numExtra ++ [254] ++ be16 t.value
    else (b0num ||| 5) :: numExtra ++ [255] ++ be32 (t.value % 4294967296)

/-- Modelled from the spec: the newer `decode_tag_number` — class bit, tag
number nibble (with the `0xF` extended-number pattern reading one extra
byte), returning byte 0 for reuse; an application nibble outside the
enumeration is a typed invalid-variant failure. -/
def decodeTagNumber (buf : List Nat) (r : Rdr) : Except Error (TagNumber × Nat) × Rdr :=
  bindP (readByte buf r) fun byte0 r =>
    if isContextSpecific byte0 then
      if isExtendedTagNumber byte0 then
        bindP (readByte buf r) fun num r =>
          (.ok (.contextSpecific num, byte0), r)
      else
        (.ok (.contextSpecific (byte0 >>> 4), byte0), r)
    else
      match ApplicationTagNumber.fromU8 (byte0 >>> 4) with
      | some num => (.ok (.application num, byte0), r)
      | none => (.error (.invalidVariant "application tag number" (byte0 >>> 4)), r)

/-- Modelled from the spec: the newer `Tag::decode` — tag number, then the
length/value code (literal 0–4; extended with `254`/`255` markers; codes 6
and 7 become opening/closing context tag numbers with value 0). -/
def Tag.decode (buf : List Nat) (r : Rdr) : Except Error Tag × Rdr :=
  bindP (decodeTagNumber buf r) fun nb r =>
    let number := nb.1
    let byte0 := nb.2
    if isExtendedValue byte0 then
      bindP (readByte buf r) fun b r =>
        if b == 255 then
          bindP (readBytes buf 4 r) fun bs r => (.ok ⟨number, beVal bs⟩, r)
        else if b == 254 then
          bindP (readBytes buf 2 r) fun bs r => (.ok ⟨number, beVal bs⟩, r)
        else
          (.ok ⟨number, b⟩, r)
    else if isOpeningTag byte0 then
      match number with
      | .contextSpecific n => (.ok ⟨.contextSpecificOpening n, 0⟩, r)
      | _ => (.ok ⟨number, 0⟩, r)
    else if isClosingTag byte0 then
      match number with
      | .contextSpecific n => (.ok ⟨.contextSpecificClosing n, 0⟩, r)
      | _ => (.ok ⟨number, 0⟩, r)
    else
      (.ok ⟨number, byte0 &&& 0x07⟩, r)

/-- `Tag::decode_expected`: decode a tag and require its number to match,
failing with a typed unexpected-tag error otherwise. -/
def Tag.decodeExpected (buf : List Nat) (expected : TagNumber) (msg : String)
    (r : Rdr) : Except Error Tag × Rdr :=
  bindP (Tag.decode buf r) fun tag r =>
    if tag.number == expected then (.ok tag, r)
    else (.error (.unexpectedTag msg), r)

/-- `Tag::expect_number` on an already-decoded tag. -/
def Tag.expectNumber (tag : Tag) (msg : String) (expected : TagNumber) :
    Except Error Unit :=
  if tag.number == expected then .ok () else .error (.unexpectedTag msg)

end V2

-- ## Scalar content codecs and helper encoders (collaborator boundary)

/-- Big-endian bytes interpreted as a two's-complement signed value of the
list's width. -/
def twosComp (bs : List Nat) : Int :=
  let n := beVal bs
  if 2 * n < 2 ^ (8 * bs.length) then (n : Int) else (n : Int) - 2 ^ (8 * bs.length)

/-- Modelled from the spec: `decode_unsigned` (`common/helper.rs`, not under
`src/`) — read the tag's length worth of bytes as a big-endian unsigned
value (newer, fallible cursor). -/
def decodeUnsignedP (buf : List Nat) (len : Nat) (r : Rdr) : Except Error Nat × Rdr :=
  bindP (V2.readBytes buf len r) fun bs r => (.ok (beVal bs), r)

/-- Modelled from the spec: `decode_signed` — read the tag's length worth of
bytes as a big-endian two's-complement signed value. -/
def decodeSignedP (buf : List Nat) (len : Nat) (r : Rdr) : Except Error Int × Rdr :=
  bindP (V2.readBytes buf len r) fun bs r => (.ok (twosComp bs), r)

/-- Modelled from the spec: `ObjectId::decode` content part — a big-endian
unsigned value split as a 10-bit object type and 22-bit instance. -/
def decodeObjectIdContent (v : Nat) : ObjectId :=
  ⟨v / 4194304 % 1024, v % 4194304⟩

/-- Modelled from the spec: `ObjectId::decode` (newer, fallible cursor). -/
def ObjectId.decodeP (buf : List Nat) (len : Nat) (r : Rdr) : Except Error ObjectId × Rdr :=
  bindP (decodeUnsignedP buf len r) fun v r => (.ok (decodeObjectIdContent v), r)

/-- Modelled from the spec: `decode_context_object_id` — a context tag with
the expected number wrapping an object id. -/
def decodeContextObjectId (buf : List Nat) (tagnum : Nat) (msg : String)
    (r : Rdr) : Except Error ObjectId × Rdr :=
  bindP (V2.Tag.decodeExpected buf (.contextSpecific tagnum) msg r) fun tag r =>
    ObjectId.decodeP buf tag.value r

/-- Modelled from the spec: `decode_context_property_id` — a context tag with
the expected number wrapping an enumerated (unsigned) property id. -/
def decodeContextPropertyId (buf : List Nat) (tagnum : Nat) (msg : String)
    (r : Rdr) : Except Error Nat × Rdr :=
  bindP (V2.Tag.decodeExpected buf (.contextSpecific tagnum) msg r) fun tag r =>
    bindP (decodeUnsignedP buf tag.value r) fun v r => (.ok (v % 4294967296), r)

/-- The packed 32-bit object identifier content (10-bit type, 22-bit id). -/
def ObjectId.toU32 (oid : ObjectId) : Nat :=
  oid.objectType % 1024 * 4194304 + oid.id % 4194304

/-- Modelled from the spec: `encode_context_object_id` — a context tag of
value 4 followed by the packed 32-bit object identifier. -/
def encodeContextObjectIdBytes (tagnum : Nat) (oid : ObjectId) : List Nat :=
  V2.Tag.encodeBytes ⟨.contextSpecific tagnum, 4⟩ ++ be32 oid.toU32

/-- Modelled from the spec: `encode_context_unsigned` — a context tag of
value 4 followed by the fixed-width 32-bit big-endian value. -/
def encodeContextUnsignedBytes (tagnum : Nat) (v : Nat) : List Nat :=
  V2.Tag.encodeBytes ⟨.contextSpecific tagnum, 4⟩ ++ be32 (v % 4294967296)

/-- Modelled from the spec: `encode_context_enumerated` — an enumerated
(property id) value in the same fixed-width context form. -/
def encodeContextEnumeratedBytes (tagnum : Nat) (v : Nat) : List Nat :=
  encodeContextUnsignedBytes tagnum v

/-- Modelled from the spec: `encode_opening_tag`. -/
def encodeOpeningTagBytes (num : Nat) : List Nat :=
  V2.Tag.encodeBytes ⟨.contextSpecificOpening num, 0⟩

/-- Modelled from the spec: `encode_closing_tag`. -/
def encodeClosingTagBytes (num : Nat) : List Nat :=
  V2.Tag.encodeBytes ⟨.contextSpecificClosing num, 0⟩

/-- Modelled from the spec: `encode_application_unsigned` — an application
unsigned-integer tag of value 4 followed by the fixed-width 32-bit
big-endian value. -/
def encodeApplicationUnsignedBytes (v : Nat) : List Nat :=
  V2.Tag.encodeBytes ⟨.application .unsignedInt, 4⟩ ++ be32 (v % 4294967296)

/-- Modelled from the spec: `encode_application_signed` — an application
signed-integer tag of value 4 followed by the fixed-width 32-bit
big-endian two's-complement value (`as i32`). -/
def encodeApplicationSignedBytes (v : Int) : List Nat :=
  V2.Tag.encodeBytes ⟨.application .signedInt, 4⟩ ++ be32 (v.emod 4294967296).toNat

-- ## Cursor-progress facts for the older decode primitives

/-- A successful old-cursor `read_byte` advances by exactly one and stays in
bounds. -/
theorem readByteP_ok_adv {buf : List Nat} {r : Rdr} {b : Nat} {r' : Rdr}
    (h : readByteP buf r = .ok (b, r')) :
    r.index < r.endIdx ∧ r'.index = r.index + 1 ∧ r'.endIdx = r.endIdx := by
  unfold readByteP at h
  split at h
  · simp only [Except.ok.injEq, Prod.mk.injEq] at h
    obtain ⟨-, hr⟩ := h
    subst hr
    exact ⟨by assumption, rfl, rfl⟩
  · simp at h

/-- A successful old-cursor `read_bytes` advances by exactly its count and
stays in bounds. -/
theorem readBytesP_ok_adv {buf : List Nat} {n : Nat} {r : Rdr} {bs : List Nat}
    {r' : Rdr} (h : readBytesP buf n r = .ok (bs, r')) :
    r.index + n ≤ r.endIdx ∧ r'.index = r.index + n ∧ r'.endIdx = r.endIdx := by
  unfold readBytesP at h
  split at h
  · simp only [Except.ok.injEq, Prod.mk.injEq] at h
    obtain ⟨-, hr⟩ := h
    subst hr
    exact ⟨by assumption, rfl, rfl⟩
  · simp at h

/-- An ok result of `bindD` factors through an ok result of its first step. -/
theorem bindD_ok_elim {α β : Type} {m : DecR α} {k : α → Rdr → DecR β}
    {x : β × Rdr} (h : bindD m k = .ok x) :
    ∃ a r', m = .ok (a, r') ∧ k a r' = .ok x := by
  cases m with
  | error e => simp [bindD] at h
  | ok p =>
      rcases p with ⟨a, r⟩
      exact ⟨a, r, rfl, h⟩

/-- Bounds-monotonicity of an old decode step: the end bound is preserved,
the cursor never moves backwards, and it never escapes the declared end. -/
def MonoD {α : Type} (m : Rdr → DecR α) : Prop :=
  ∀ r a r', m r = .ok (a, r') →
    r'.endIdx = r.endIdx ∧ r.index ≤ r'.index ∧ r'.index ≤ max r.index r.endIdx

/-- Strict progress of an old decode step: on success the cursor strictly
advances and stays within the declared end. -/
def AdvD {α : Type} (m : Rdr → DecR α) : Prop :=
  ∀ r a r', m r = .ok (a, r') →
    r'.endIdx = r.endIdx ∧ r.index < r'.index ∧ r'.index ≤ r.endIdx

/-- A strictly advancing step is in particular bounds-monotone. -/
theorem AdvD.monoD {α : Type} {m : Rdr → DecR α} (h : AdvD m) : MonoD m := by
  intro r a r' hr
  have := h r a r' hr
  refine ⟨this.1, by omega, by omega⟩

/-- `readByteP` strictly advances. -/
theorem readByteP_advD (buf : List Nat) : AdvD (readByteP buf) := by
  intro r a r' h
  have := readByteP_ok_adv h
  omega

/-- `readBytesP` is bounds-monotone. -/
theorem readBytesP_monoD (buf : List Nat) (n : Nat) : MonoD (readBytesP buf n) := by
  intro r a r' h
  have := readBytesP_ok_adv h
  omega

/-- Sequencing two bounds-monotone steps is bounds-monotone. -/
theorem monoD_bindD {α β : Type} {m : Rdr → DecR α} {k : α → Rdr → DecR β}
    (hm : MonoD m) (hk : ∀ a, MonoD (k a)) : MonoD (fun r => bindD (m r) k) := by
  intro r a r' h
  rcases bindD_ok_elim h with ⟨b, r1, h1, h2⟩
  have hm1 := hm r b r1 h1
  have hk1 := hk b r1 a r' h2
  omega

/-- Sequencing a strictly advancing step with a bounds-monotone continuation
strictly advances. -/
theorem advD_bindD {α β : Type} {m : Rdr → DecR α} {k : α → Rdr → DecR β}
    (hm : AdvD m) (hk : ∀ a, MonoD (k a)) : AdvD (fun r => bindD (m r) k) := by
  intro r a r' h
  rcases bindD_ok_elim h with ⟨b, r1, h1, h2⟩
  have hm1 := hm r b r1 h1
  have hk1 := hk b r1 a r' h2
  omega

/-- `decode_tag_number` strictly advances the old cursor. -/
theorem decodeTagNumber_advD (buf : List Nat) : AdvD (decodeTagNumber buf) := by
  intro r a r' h
  unfold decodeTagNumber at h
  rcases bindD_ok_elim h with ⟨byte0, r1, h1, h2⟩
  have a1 := readByteP_ok_adv h1
  split at h2
  · split at h2
    · rcases bindD_ok_elim h2 with ⟨num, r2, h3, h4⟩
      have a2 := readByteP_ok_adv h3
      simp only [Except.ok.injEq, Prod.mk.injEq] at h4
      obtain ⟨-, hr⟩ := h4
      subst hr
      omega
    · simp only [Except.ok.injEq, Prod.mk.injEq] at h2
      obtain ⟨-, hr⟩ := h2
      subst hr
      omega
  · split at h2
    · simp only [Except.ok.injEq, Prod.mk.injEq] at h2
      obtain ⟨-, hr⟩ := h2
      subst hr
      omega
    · simp at h2

/-- The old `Tag::decode` strictly advances the cursor. -/
theorem tagDecode_advD (buf : List Nat) : AdvD (Tag.decode buf) := by
  intro r a r' h
  unfold Tag.decode at h
  rcases bindD_ok_elim h with ⟨⟨number, byte0⟩, r1, h1, h2⟩
  have a1 := decodeTagNumber_advD buf r _ r1 h1
  dsimp only at h2
  split at h2
  · rcases bindD_ok_elim h2 with ⟨b, r2, h3, h4⟩
    have a2 := readByteP_ok_adv h3
    split at h4
    · rcases bindD_ok_elim h4 with ⟨bs, r3, h5, h6⟩
      have a3 := readBytesP_ok_adv h5
      simp only [Except.ok.injEq, Prod.mk.injEq] at h6
      obtain ⟨-, hr⟩ := h6
      subst hr
      omega
    · split at h4
      · rcases bindD_ok_elim h4 with ⟨bs, r3, h5, h6⟩
        have a3 := readBytesP_ok_adv h5
        simp only [Except.ok.injEq, Prod.mk.injEq] at h6
        obtain ⟨-, hr⟩ := h6
        subst hr
        omega
      · simp only [Except.ok.injEq, Prod.mk.injEq] at h4
        obtain ⟨-, hr⟩ := h4
        subst hr
        omega
  · split at h2 <;>
    · simp only [Except.ok.injEq, Prod.mk.injEq] at h2
      obtain ⟨-, hr⟩ := h2
      subst hr
      omega

-- ## ReadPropertyMultiple / Ack (`src/application_protocol/read_property_multiple.rs`)

/-- `PropertyId` is an out-of-scope enumerated identifier table; it is
carried as its `u32` wire value. -/
abbrev PropertyId := Nat

/-- `PropertyId::PropEventTimeStamps`: the one property id whose value
grammar is skipped byte-by-byte by the ack decoder. -/
def propEventTimeStamps : PropertyId := 130

/-- Modelled from the spec: old-cursor `decode_unsigned` — read the tag's
length worth of bytes as a big-endian unsigned value. -/
def decodeUnsigned (buf : List Nat) (len : Nat) (r : Rdr) : DecR Nat :=
  bindD (readBytesP buf len r) fun bs r => .ok (beVal bs, r)

/-- Modelled from the spec: old-cursor `ObjectId::decode` — a big-endian
unsigned value split as a 10-bit object type and a 22-bit instance (the
`.unwrap()` at the call site cannot fire beyond the read failures already
modelled). -/
def ObjectId.decode (buf : List Nat) (len : Nat) (r : Rdr) : DecR ObjectId :=
  bindD (decodeUnsigned buf len r) fun v r => .ok (decodeObjectIdContent v, r)

/-- Modelled from the spec: `ApplicationDataValue` (the primitive scalar
codec boundary, `primitives/data_value.rs` not under `src/`): the decoded
payload is carried as the tag it was read under plus its raw content bytes;
`boolean` is the materialized value the timestamp skip produces. -/
inductive ApplicationDataValue where
  | boolean (b : Bool)
  | raw (tag : Tag) (bytes : List Nat)
deriving DecidableEq, Repr

/-- Modelled from the spec: `ApplicationDataValue::decode` — a fixed-format
scalar codec consuming the tag's length field worth of content bytes. -/
def ApplicationDataValue.decode (tag : Tag) (buf : List Nat) (r : Rdr) :
    DecR ApplicationDataValue :=
  bindD (readBytesP buf tag.value r) fun bs r => .ok (.raw tag bs, r)

/-- `PropertyValue`: scalar value, description string, or object name. -/
inductive PropertyValue where
  | propValue (v : ApplicationDataValue)
  | propDescription (s : List Nat)
  | propObjectName (s : List Nat)
deriving DecidableEq, Repr

/-- `PropertyResult`: one property id with its decoded value. -/
structure PropertyResult where
  id : PropertyId
  value : PropertyValue
deriving DecidableEq, Repr

/-- `ObjectWithResults`: one object id with its decoded property results. -/
structure ObjectWithResults where
  objectId : ObjectId
  results : List PropertyResult
deriving DecidableEq, Repr

/-- `ReadPropertyMultipleAck`. -/
structure ReadPropertyMultipleAck where
  objects : List ObjectWithResults
deriving DecidableEq, Repr

/-- The `PropEventTimeStamps` skip loop of `ReadPropertyMultipleAck::decode`
(lines 87–93): read bytes one at a time until the byte `0x4F` (the closing
form of tag 4) appears, then yield `PropValue(Boolean(false))`. Terminates
because every iteration strictly advances the cursor, which cannot pass the
declared end. -/
def skipTimeStampsLoop (buf : List Nat) (r : Rdr) : DecR PropertyValue :=
  match h : readByteP buf r with
  | .error e => .error e
  | .ok (byte, r') =>
    if byte == 0x4F then .ok (.propValue (.boolean false), r')
    else skipTimeStampsLoop buf r'
termination_by r.endIdx - r.index
decreasing_by
  have := readByteP_ok_adv h
  omega

/-- The timestamp skip loop strictly advances the cursor (stated with an
explicit bound for the induction). -/
theorem skipTimeStampsLoop_adv_aux (buf : List Nat) :
    ∀ (n : Nat) (r : Rdr), r.endIdx - r.index < n →
      ∀ a r', skipTimeStampsLoop buf r = .ok (a, r') →
        r'.endIdx = r.endIdx ∧ r.index < r'.index ∧ r'.index ≤ r.endIdx := by
  intro n
  induction n with
  | zero => intro r hb; omega
  | succ n ih =>
      intro r hb a r' h
      rw [skipTimeStampsLoop.eq_def] at h
      split at h
      · simp at h
      · next byte r2 heq =>
          have a1 := readByteP_ok_adv heq
          split at h
          · simp only [Except.ok.injEq, Prod.mk.injEq] at h
            obtain ⟨-, hr⟩ := h
            subst hr
            omega
          · have a2 := ih r2 (by omega) a r' h
            omega

/-- The timestamp skip loop strictly advances the cursor. -/
theorem skipTimeStampsLoop_advD (buf : List Nat) : AdvD (skipTimeStampsLoop buf) := by
  intro r a r' h
  exact skipTimeStampsLoop_adv_aux buf (r.endIdx - r.index + 1) r (by omega) a r' h

/-- One iteration of the inner (property result) loop of
`ReadPropertyMultipleAck::decode`: a closing context tag 1 ends the loop
(`none`); otherwise a context tag 2 property id, an opening context tag 4,
and the value (with the `PropEventTimeStamps` byte-scan special case)
followed by a closing context tag 4. The `assert_eq!` mismatches are
panics. -/
def resultStep (buf : List Nat) (r : Rdr) : DecR (Option PropertyResult) :=
  bindD (Tag.decode buf r) fun tag r =>
  if tag.number == .contextSpecific 1 then .ok (none, r)
  else if tag.number == .contextSpecific 2 then
    bindD (decodeUnsigned buf tag.value r) fun du r =>
    let propertyId : PropertyId := du % 4294967296
    bindD (Tag.decode buf r) fun tag2 r =>
    if tag2.number == .contextSpecific 4 then
      if propertyId == propEventTimeStamps then
        bindD (skipTimeStampsLoop buf r) fun pv r =>
          .ok (some ⟨propertyId, pv⟩, r)
      else
        bindD (Tag.decode buf r) fun tag3 r =>
        bindD (ApplicationDataValue.decode tag3 buf r) fun v r =>
        bindD (Tag.decode buf r) fun tag4 r =>
        if tag4.number == .contextSpecific 4 then
          .ok (some ⟨propertyId, .propValue v⟩, r)
        else .error (.panicked "expected closing tag")
    else .error (.panicked "expected opening tag")
  else .error (.panicked "expected property identifier tag")

/-- One inner-loop iteration strictly advances the cursor. -/
theorem resultStep_advD (buf : List Nat) : AdvD (resultStep buf) := by
  have hmono2 : ∀ du : Nat, MonoD fun r =>
      bindD (Tag.decode buf r) fun tag2 r =>
        (if tag2.number == .contextSpecific 4 then
          if (du % 4294967296 : Nat) == propEventTimeStamps then
            bindD (skipTimeStampsLoop buf r) fun pv r =>
              .ok (some (⟨du % 4294967296, pv⟩ : PropertyResult), r)
          else
            bindD (Tag.decode buf r) fun tag3 r =>
            bindD (ApplicationDataValue.decode tag3 buf r) fun v r =>
            bindD (Tag.decode buf r) fun tag4 r =>
            if tag4.number == .contextSpecific 4 then
              .ok (some (⟨du % 4294967296, .propValue v⟩ : PropertyResult), r)
            else .error (.panicked "expected closing tag")
        else .error (.panicked "expected opening tag")) := by
    intro du
    apply monoD_bindD (tagDecode_advD buf).monoD
    intro tag2
    intro r a r' h
    split at h
    · split at h
      · rcases bindD_ok_elim h with ⟨pv, r1, h1, h2⟩
        have a1 := skipTimeStampsLoop_advD buf r pv r1 h1
        simp only [Except.ok.injEq, Prod.mk.injEq] at h2
        obtain ⟨-, hr⟩ := h2
        subst hr
        omega
      · rcases bindD_ok_elim h with ⟨tag3, r1, h1, h2⟩
        have a1 := tagDecode_advD buf r tag3 r1 h1
        rcases bindD_ok_elim h2 with ⟨v, r2, h3, h4⟩
        have a2 : MonoD (ApplicationDataValue.decode tag3 buf) := by
          unfold ApplicationDataValue.decode
          exact monoD_bindD (readBytesP_monoD buf tag3.value)
            (by intro bs r0 a0 r0' h0
                simp only [Except.ok.injEq, Prod.mk.injEq] at h0
                obtain ⟨-, hr⟩ := h0
                subst hr
                omega)
        have a2h := a2 r1 v r2 h3
        rcases bindD_ok_elim h4 with ⟨tag4, r3, h5, h6⟩
        have a3 := tagDecode_advD buf r2 tag4 r3 h5
        split at h6
        · simp only [Except.ok.injEq, Prod.mk.injEq] at h6
          obtain ⟨-, hr⟩ := h6
          subst hr
          omega
        · simp at h6
    · simp at h
  intro r a r' h
  unfold resultStep at h
  rcases bindD_ok_elim h with ⟨tag, r1, h1, h2⟩
  have a1 := tagDecode_advD buf r tag r1 h1
  split at h2
  · simp only [Except.ok.injEq, Prod.mk.injEq] at h2
    obtain ⟨-, hr⟩ := h2
    subst hr
    omega
  · split at h2
    · rcases bindD_ok_elim h2 with ⟨du, r2, h3, h4⟩
      have a2 : MonoD (decodeUnsigned buf tag.value) := by
        unfold decodeUnsigned
        exact monoD_bindD (readBytesP_monoD buf tag.value)
          (by intro bs r0 a0 r0' h0
              simp only [Except.ok.injEq, Prod.mk.injEq] at h0
              obtain ⟨-, hr⟩ := h0
              subst hr
              omega)
      have a2h := a2 r1 du r2 h3
      have a3 := hmono2 du r2 a r' h4
      omega
    · simp at h2

/-- The inner repeated-group loop of `ReadPropertyMultipleAck::decode`
(lines 64–115): run `resultStep` until the closing context tag 1 appears.
Terminates because every iteration strictly advances the cursor
(`resultStep_advD`), which cannot pass the declared end. -/
def resultsLoop (buf : List Nat) (r : Rdr) (acc : List PropertyResult) :
    DecR (List PropertyResult) :=
  match h : resultStep buf r with
  | .error e => .error e
  | .ok (none, r') => .ok (acc, r')
  | .ok (some p, r') => resultsLoop buf r' (acc ++ [p])
termination_by r.endIdx - r.index
decreasing_by
  have := resultStep_advD buf r _ _ h
  omega

/-- The inner loop strictly advances the cursor (it always reads at least
the tag that either closes the list or opens a result). -/
theorem resultsLoop_adv_aux (buf : List Nat) :
    ∀ (n : Nat) (r : Rdr) (acc : List PropertyResult), r.endIdx - r.index < n →
      ∀ a r', resultsLoop buf r acc = .ok (a, r') →
        r'.endIdx = r.endIdx ∧ r.index < r'.index ∧ r'.index ≤ r.endIdx := by
  intro n
  induction n with
  | zero => intro r acc hb; omega
  | succ n ih =>
      intro r acc hb a r' h
      rw [resultsLoop.eq_def] at h
      split at h
      · simp at h
      · next r2 heq =>
          have a1 := resultStep_advD buf r _ _ heq
          simp only [Except.ok.injEq, Prod.mk.injEq] at h
          obtain ⟨-, hr⟩ := h
          subst hr
          omega
      · next p r2 heq =>
          have a1 := resultStep_advD buf r _ _ heq
          have a2 := ih r2 _ (by omega) a r' h
          omega

/-- One iteration of the outer (object) loop of
`ReadPropertyMultipleAck::decode`: a context tag 0 wrapping the object id,
a context tag 1 opening the result list, then the inner loop. -/
def objectStep (buf : List Nat) (r : Rdr) : DecR ObjectWithResults :=
  bindD (Tag.decode buf r) fun tag r =>
  if tag.number == .contextSpecific 0 then
    bindD (ObjectId.decode buf tag.value r) fun oid r =>
    bindD (Tag.decode buf r) fun tag1 r =>
    if tag1.number == .contextSpecific 1 then
      bindD (resultsLoop buf r []) fun results r => .ok (⟨oid, results⟩, r)
    else .error (.panicked "expected list of results opening tag")
  else .error (.panicked "expected object_id tag")

/-- One outer-loop iteration strictly advances the cursor. -/
theorem objectStep_advD (buf : List Nat) : AdvD (objectStep buf) := by
  intro r a r' h
  unfold objectStep at h
  rcases bindD_ok_elim h with ⟨tag, r1, h1, h2⟩
  have a1 := tagDecode_advD buf r tag r1 h1
  split at h2
  · rcases bindD_ok_elim h2 with ⟨oid, r2, h3, h4⟩
    have a2 : MonoD (ObjectId.decode buf tag.value) := by
      unfold ObjectId.decode decodeUnsigned
      apply monoD_bindD
      · apply monoD_bindD (readBytesP_monoD buf tag.value)
        intro bs r0 a0 r0' h0
        simp only [Except.ok.injEq, Prod.mk.injEq] at h0
        obtain ⟨-, hr⟩ := h0
        subst hr
        omega
      · intro v r0 a0 r0' h0
        simp only [Except.ok.injEq, Prod.mk.injEq] at h0
        obtain ⟨-, hr⟩ := h0
        subst hr
        omega
    have a2h := a2 r1 oid r2 h3
    rcases bindD_ok_elim h4 with ⟨tag1, r3, h5, h6⟩
    have a3 := tagDecode_advD buf r2 tag1 r3 h5
    split at h6
    · rcases bindD_ok_elim h6 with ⟨results, r4, h7, h8⟩
      have a4 := resultsLoop_adv_aux buf (r3.endIdx - r3.index + 1) r3 [] (by omega)
        results r4 h7
      simp only [Except.ok.injEq, Prod.mk.injEq] at h8
      obtain ⟨-, hr⟩ := h8
      subst hr
      omega
    · simp at h6
  · simp at h2

/-- The outer repeated-group loop of `ReadPropertyMultipleAck::decode`
(lines 45–119): run `objectStep` until the cursor reaches end-of-input.
Terminates because every iteration strictly advances the cursor
(`objectStep_advD`), which cannot pass the declared end. -/
def objectsLoop (buf : List Nat) (r : Rdr) (acc : List ObjectWithResults) :
    DecR (List ObjectWithResults) :=
  if r.eof then .ok (acc, r)
  else
    match h : objectStep buf r with
    | .error e => .error e
    | .ok (obj, r') => objectsLoop buf r' (acc ++ [obj])
termination_by r.endIdx - r.index
decreasing_by
  have := objectStep_advD buf r _ _ h
  omega

/-- `ReadPropertyMultipleAck::decode`. -/
def ReadPropertyMultipleAck.decode (buf : List Nat) (r : Rdr) :
    DecR ReadPropertyMultipleAck :=
  bindD (objectsLoop buf r []) fun objs r => .ok (⟨objs⟩, r)

/-- `ReadPropertyMultiple` (the request). -/
structure ReadPropertyMultiple where
  objectId : ObjectId
  propertyIds : List PropertyId
  arrayIndex : Nat
deriving DecidableEq, Repr

/-- `ReadPropertyMultiple::encode`: context tag 0 object id, opening tag 1,
per property a context-tag-0 enumerated id (plus a context-tag-1 array index
when not the entire-array sentinel), closing tag 1. -/
def ReadPropertyMultiple.encodeBytes (v : ReadPropertyMultiple) : List Nat :=
  encodeContextObjectIdBytes 0 v.objectId
  ++ encodeOpeningTagBytes 1
  ++ (v.propertyIds.map (fun pid =>
        encodeContextEnumeratedBytes 0 pid
        ++ (if v.arrayIndex ≠ BACNET_ARRAY_ALL
            then encodeContextUnsignedBytes 1 v.arrayIndex else []))).flatten
  ++ encodeClosingTagBytes 1

/-- `ReadPropertyMultiple::decode` is `unimplemented!()`: it aborts on every
input. -/
def ReadPropertyMultiple.decode (_buf : List Nat) (_r : Rdr) :
    DecR ReadPropertyMultiple :=
  .error (.panicked "not implemented")

-- ## C5: both repeated-group loops strictly advance the cursor

/-- **C5.** Every iteration of both repeated-group loops of
`ReadPropertyMultipleAck::decode` — the outer object loop (`objectStep`),
the inner property-result loop (`resultStep`), and the byte-by-byte
`PropEventTimeStamps` skip loop inside it — strictly advances the read
cursor on success and never moves it past the declared end, so the decode
(whose recursion is well-founded on exactly this progress measure)
terminates with a result or a failure on every input rather than looping
with zero progress. -/
theorem c5_loops_strictly_advance :
    (∀ (buf : List Nat) (r : Rdr) x r', resultStep buf r = .ok (x, r') →
      r.index < r'.index ∧ r'.index ≤ r.endIdx ∧ r'.endIdx = r.endIdx)
    ∧ (∀ (buf : List Nat) (r : Rdr) x r', objectStep buf r = .ok (x, r') →
      r.index < r'.index ∧ r'.index ≤ r.endIdx ∧ r'.endIdx = r.endIdx)
    ∧ (∀ (buf : List Nat) (r : Rdr) x r', skipTimeStampsLoop buf r = .ok (x, r') →
      r.index < r'.index ∧ r'.index ≤ r.endIdx ∧ r'.endIdx = r.endIdx) := by
  refine ⟨fun buf r x r' h => ?_, fun buf r x r' h => ?_, fun buf r x r' h => ?_⟩
  · have := resultStep_advD buf r x r' h
    omega
  · have := objectStep_advD buf r x r' h
    omega
  · have := skipTimeStampsLoop_advD buf r x r' h
    omega

/-- **C5 witness.** A concrete successful inner-loop iteration (the closing
tag byte `0x1F` at cursor 0 of a one-byte region) advances the cursor from
0 to 1. -/
theorem c5_loops_strictly_advance_witness :
    (0 : Nat) < 1 ∧ (1 : Nat) ≤ 1 ∧ (1 : Nat) = 1 :=
  c5_loops_strictly_advance.1 [0x1F] ⟨0, 1⟩ none ⟨1, 1⟩ (by decide)

-- ## C6: an object entry with zero property results decodes to an empty list

/-- **C6.** A `ReadPropertyMultipleAck` body consisting of a context tag 0
(object id `Device:1`, bytes `0x0C 02 00 00 01`), the opening tag 1
(`0x1E`) immediately followed by the closing tag 1 (`0x1F`), decodes
successfully to one object-with-results entry whose results sequence is
empty — it is not an error. -/
theorem c6_empty_results :
    ReadPropertyMultipleAck.decode [0x0C, 2, 0, 0, 1, 0x1E, 0x1F] ⟨0, 7⟩
      = .ok (⟨[⟨⟨8, 1⟩, []⟩]⟩, ⟨7, 7⟩) := by
  have hr1 : resultStep [0x0C, 2, 0, 0, 1, 0x1E, 0x1F] ⟨6, 7⟩ = .ok (none, ⟨7, 7⟩) := by
    decide
  have hloop : resultsLoop [0x0C, 2, 0, 0, 1, 0x1E, 0x1F] ⟨6, 7⟩ [] = .ok ([], ⟨7, 7⟩) := by
    rw [resultsLoop.eq_def]
    split
    · next e heq => rw [hr1] at heq; cases heq
    · next r2 heq =>
        rw [hr1] at heq
        injection heq with h1
        injection h1 with h2 h3
        subst h3
        rfl
    · next p r2 heq =>
        rw [hr1] at heq
        injection heq with h1
        injection h1 with h2 h3
        cases h2
  have hstep : objectStep [0x0C, 2, 0, 0, 1, 0x1E, 0x1F] ⟨0, 7⟩
      = .ok (⟨⟨8, 1⟩, []⟩, ⟨7, 7⟩) := by
    unfold objectStep
    have htag : Tag.decode [0x0C, 2, 0, 0, 1, 0x1E, 0x1F] ⟨0, 7⟩
        = .ok (⟨.contextSpecific 0, 4⟩, ⟨1, 7⟩) := by decide
    rw [htag, bindD_ok]
    norm_num
    have hoid : ObjectId.decode [0x0C, 2, 0, 0, 1, 0x1E, 0x1F] 4 ⟨1, 7⟩
        = .ok (⟨8, 1⟩, ⟨5, 7⟩) := by decide
    rw [hoid, bindD_ok]
    have htag2 : Tag.decode [0x0C, 2, 0, 0, 1, 0x1E, 0x1F] ⟨5, 7⟩
        = .ok (⟨.contextSpecific 1, 0⟩, ⟨6, 7⟩) := by decide
    rw [htag2, bindD_ok]
    norm_num
    rw [hloop, bindD_ok]
  unfold ReadPropertyMultipleAck.decode
  rw [objectsLoop.eq_def]
  norm_num [Rdr.eof]
  split
  · next e heq => rw [hstep] at heq; cases heq
  · next obj r2 heq =>
      rw [hstep] at heq
      injection heq with h1
      injection h1 with h2 h3
      subst h2; subst h3
      rw [objectsLoop.eq_def]
      norm_num [Rdr.eof, bindD]

-- ## Application-PDU dispatch (`src/application_protocol/application_pdu.rs`)

/-- `ApduType`: the eight PDU kind discriminants of the control byte's high
nibble. -/
inductive ApduType where
  | confirmedServiceRequest | unconfirmedServiceRequest | simpleAck
  | complexAck | segmentAck | error | reject | abort
deriving DecidableEq, Repr

/-- `impl From<u8> for ApduType`; `none` is the source's
`panic!("invalid pdu type")`. -/
def ApduType.fromU8 (n : Nat) : Option ApduType :=
  if n = 0 then some .confirmedServiceRequest
  else if n = 1 then some .unconfirmedServiceRequest
  else if n = 2 then some .simpleAck
  else if n = 3 then some .complexAck
  else if n = 4 then some .segmentAck
  else if n = 5 then some .error
  else if n = 6 then some .reject
  else if n = 7 then some .abort
  else none

/-- `ConfirmedServiceChoice`: the 35 standardized confirmed service codes. -/
inductive ConfirmedServiceChoice where
  | acknowledgeAlarm | covNotification | eventNotification | getAlarmSummary
  | getEnrollmentSummary | subscribeCov | atomicReadFile | atomicWriteFile
  | addListElement | removeListElement | createObject | deleteObject
  | readProperty | readPropConditional | readPropMultiple | writeProperty
  | writePropMultiple | deviceCommunicationControl | privateTransfer
  | textMessage | reinitializeDevice | vtOpen | vtClose | vtData
  | authenticate | requestKey | readRange | lifeSafetyOperation
  | subscribeCovProperty | getEventInformation | subscribeCovPropertyMultiple
  | covNotificationMultiple | auditNotification | auditLogQuery
  | maxBacnetConfirmedService
deriving DecidableEq, Repr

/-- `impl From<u8> for ConfirmedServiceChoice`; `none` is the source's
`panic!("invalid confirmed service choice")`. -/
def ConfirmedServiceChoice.fromU8 (n : Nat) : Option ConfirmedServiceChoice :=
  if n = 0 then some .acknowledgeAlarm
  else if n = 1 then some .covNotification
  else if n = 2 then some .eventNotification
  else if n = 3 then some .getAlarmSummary
  else if n = 4 then some .getEnrollmentSummary
  else if n = 5 then some .subscribeCov
  else if n = 6 then some .atomicReadFile
  else if n = 7 then some .atomicWriteFile
  else if n = 8 then some .addListElement
  else if n = 9 then some .removeListElement
  else if n = 10 then some .createObject
  else if n = 11 then some .deleteObject
  else if n = 12 then some .readProperty
  else if n = 13 then some .readPropConditional
  else if n = 14 then some .readPropMultiple
  else if n = 15 then some .writeProperty
  else if n = 16 then some .writePropMultiple
  else if n = 17 then some .deviceCommunicationControl
  else if n = 18 then some .privateTransfer
  else if n = 19 then some .textMessage
  else if n = 20 then some .reinitializeDevice
  else if n = 21 then some .vtOpen
  else if n = 22 then some .vtClose
  else if n = 23 then some .vtData
  else if n = 24 then some .authenticate
  else if n = 25 then some .requestKey
  else if n = 26 then some .readRange
  else if n = 27 then some .lifeSafetyOperation
  else if n = 28 then some .subscribeCovProperty
  else if n = 29 then some .getEventInformation
  else if n = 30 then some .subscribeCovPropertyMultiple
  else if n = 31 then some .covNotificationMultiple
  else if n = 32 then some .auditNotification
  else if n = 33 then some .auditLogQuery
  else if n = 34 then some .maxBacnetConfirmedService
  else none

/-- `UnconfirmedServiceChoice`: the 16 standardized unconfirmed service
codes. -/
inductive UnconfirmedServiceChoice where
  | iAm | iHave | covNotification | eventNotification | privateTransfer
  | textMessage | timeSynchronization | whoHas | whoIs
  | utcTimeSynchronization | writeGroup | covNotificationMultiple
  | auditNotification | whoAmI | youAre | maxBacnetUnconfirmedService
deriving DecidableEq, Repr

/-- `impl From<u8> for UnconfirmedServiceChoice`; `none` is the source's
`panic!("invalid unconfirmed service choice")`. -/
def UnconfirmedServiceChoice.fromU8 (n : Nat) : Option UnconfirmedServiceChoice :=
  if n = 0 then some .iAm
  else if n = 1 then some .iHave
  else if n = 2 then some .covNotification
  else if n = 3 then some .eventNotification
  else if n = 4 then some .privateTransfer
  else if n = 5 then some .textMessage
  else if n = 6 then some .timeSynchronization
  else if n = 7 then some .whoHas
  else if n = 8 then some .whoIs
  else if n = 9 then some .utcTimeSynchronization
  else if n = 10 then some .writeGroup
  else if n = 11 then some .covNotificationMultiple
  else if n = 12 then some .auditNotification
  else if n = 13 then some .whoAmI
  else if n = 14 then some .youAre
  else if n = 15 then some .maxBacnetUnconfirmedService
  else none

/-- Modelled from the spec: the `IAm` service payload (`i_am.rs` not under
`src/`), carried opaquely. -/
structure IAm where
  raw : List Nat
deriving DecidableEq, Repr

/-- Modelled from the spec: the `WhoIs` service payload (`who_is.rs` not
under `src/`), carried opaquely. -/
structure WhoIs where
  raw : List Nat
deriving DecidableEq, Repr

/-- Modelled from the spec: the `ReadProperty` request payload
(`read_property.rs` not under `src/`), carried opaquely. -/
structure ReadProperty where
  raw : List Nat
deriving DecidableEq, Repr

/-- Modelled from the spec: the `ReadPropertyAck` payload
(`read_property.rs` not under `src/`), carried opaquely. -/
structure ReadPropertyAck where
  raw : List Nat
deriving DecidableEq, Repr

/-- `ConfirmedRequestSerivice` (the source's spelling): the confirmed
request payloads this codec services. -/
inductive ConfirmedRequestSerivice where
  | readProperty (service : ReadProperty)
  | readPropertyMultiple (service : ReadPropertyMultiple)
deriving DecidableEq, Repr

/-- `ConfirmedRequest`. -/
structure ConfirmedRequest where
  maxSegments : Nat
  maxAdpu : Nat
  invokeId : Nat
  sequenceNum : Nat
  proposedWindowSize : Nat
  service : ConfirmedRequestSerivice
deriving DecidableEq, Repr

/-- `ConfirmedRequest::decode` is `unimplemented!()`: it aborts on every
input. -/
def ConfirmedRequest.decode (_buf : List Nat) (_r : Rdr) : DecR ConfirmedRequest :=
  .error (.panicked "not implemented")

/-- `ComplexAckService`: the acknowledgement payloads this codec services. -/
inductive ComplexAckService where
  | readProperty (ack : ReadPropertyAck)
  | readPropertyMultiple (ack : ReadPropertyMultipleAck)
deriving DecidableEq, Repr

/-- `ComplexAck`. -/
structure ComplexAck where
  invokeId : Nat
  service : ComplexAckService
deriving DecidableEq, Repr

/-- `ComplexAck::decode`, parametrized by the `ReadPropertyAck` decoder
(`read_property.rs` is not under `src/`): invoke id, service choice byte,
then dispatch; a choice outside the table is the `From<u8>` panic and a
serviced choice without a decoder here is the `unimplemented!()` panic. -/
def ComplexAck.decode (rpAckDec : List Nat → Rdr → DecR ReadPropertyAck)
    (buf : List Nat) (r : Rdr) : DecR ComplexAck :=
  bindD (readByteP buf r) fun invokeId r =>
  bindD (readByteP buf r) fun choiceByte r =>
  match ConfirmedServiceChoice.fromU8 choiceByte with
  | none => .error (.panicked "invalid confirmed service choice")
  | some choice =>
    match choice with
    | .readProperty =>
        bindD (rpAckDec buf r) fun apdu r =>
          .ok (⟨invokeId, .readProperty apdu⟩, r)
    | .readPropMultiple =>
        bindD (ReadPropertyMultipleAck.decode buf r) fun apdu r =>
          .ok (⟨invokeId, .readPropertyMultiple apdu⟩, r)
    | _ => .error (.panicked "not implemented")

/-- `UnconfirmedRequest`. -/
inductive UnconfirmedRequest where
  | whoIs (payload : WhoIs)
  | iAm (payload : IAm)
deriving DecidableEq, Repr

/-- `UnconfirmedRequest::decode`, parametrized by the `IAm` and `WhoIs`
decoders (not under `src/`): the service choice byte dispatches; `IAm`
failures hit the source's `.unwrap()` panic, a choice outside the table is
the `From<u8>` panic, and a choice without a decoder here is the
`unimplemented!()` panic. -/
def UnconfirmedRequest.decode (iamDec : List Nat → Rdr → DecR IAm)
    (whoisDec : List Nat → Rdr → DecR WhoIs)
    (buf : List Nat) (r : Rdr) : DecR UnconfirmedRequest :=
  bindD (readByteP buf r) fun choiceByte r =>
  match UnconfirmedServiceChoice.fromU8 choiceByte with
  | none => .error (.panicked "invalid unconfirmed service choice")
  | some choice =>
    match choice with
    | .iAm =>
        match iamDec buf r with
        | .ok (apdu, r) => .ok (.iAm apdu, r)
        | .error _ => .error (.panicked "called unwrap on an Err value")
    | .whoIs =>
        bindD (whoisDec buf r) fun apdu r => .ok (.whoIs apdu, r)
    | _ => .error (.panicked "not implemented")

/-- `ApplicationPdu`: the serviced PDU kinds. -/
inductive ApplicationPdu where
  | confirmedRequest (req : ConfirmedRequest)
  | unconfirmedRequest (req : UnconfirmedRequest)
  | complexAck (ack : ComplexAck)
deriving DecidableEq, Repr

/-- `ApplicationPdu::decode`: control byte 0, whose high nibble selects the
PDU kind (the low-nibble flags are computed and discarded by the source);
confirmed requests, unconfirmed requests and complex acks dispatch onward,
every other kind is the `unimplemented!()` panic, and a nibble beyond 7 is
the `From<u8>` panic. -/
def ApplicationPdu.decode (rpAckDec : List Nat → Rdr → DecR ReadPropertyAck)
    (iamDec : List Nat → Rdr → DecR IAm)
    (whoisDec : List Nat → Rdr → DecR WhoIs)
    (buf : List Nat) (r : Rdr) : DecR ApplicationPdu :=
  bindD (readByteP buf r) fun byte0 r =>
  match ApduType.fromU8 (byte0 >>> 4) with
  | none => .error (.panicked "invalid pdu type")
  | some pduType =>
    match pduType with
    | .confirmedServiceRequest =>
        bindD (ConfirmedRequest.decode buf r) fun apdu r =>
          .ok (.confirmedRequest apdu, r)
    | .unconfirmedServiceRequest =>
        bindD (UnconfirmedRequest.decode iamDec whoisDec buf r) fun apdu r =>
          .ok (.unconfirmedRequest apdu, r)
    | .complexAck =>
        bindD (ComplexAck.decode rpAckDec buf r) fun apdu r =>
          .ok (.complexAck apdu, r)
    | _ => .error (.panicked "not implemented")

/-- A decode outcome that is a process abort rather than a typed error. -/
def panicsD {α : Type} (x : DecR α) : Bool :=
  match x with
  | .error e => e.isPanicked
  | .ok _ => false

/-- `ApduType::from` hits its panic arm beyond 7. -/
theorem apduTypeFromU8_none {n : Nat} (h : 7 < n) : ApduType.fromU8 n = none := by
  unfold ApduType.fromU8
  repeat rw [if_neg (by omega)]

/-- `ConfirmedServiceChoice::from` hits its panic arm beyond 34. -/
theorem confirmedChoiceFromU8_none {n : Nat} (h : 34 < n) :
    ConfirmedServiceChoice.fromU8 n = none := by
  unfold ConfirmedServiceChoice.fromU8
  repeat rw [if_neg (by omega)]

/-- `UnconfirmedServiceChoice::from` hits its panic arm beyond 15. -/
theorem unconfirmedChoiceFromU8_none {n : Nat} (h : 15 < n) :
    UnconfirmedServiceChoice.fromU8 n = none := by
  unfold UnconfirmedServiceChoice.fromU8
  repeat rw [if_neg (by omega)]

-- ## C3: unsupported discriminants abort instead of returning typed errors

/-- **C3.** The claim states that unknown or not-yet-serviced discriminants
decode to a typed "unsupported service" error and never abort the process.
The code aborts on every such discriminant, whatever the collaborating
sub-decoders do: PDU types SimpleAck/SegmentAck/Error/Reject/Abort hit
`unimplemented!()`; a type nibble beyond 7 hits `panic!("invalid pdu
type")`; a confirmed request hits `ConfirmedRequest::decode`'s
`unimplemented!()`; a complex ack whose valid service choice has no decoder
(anything but 12 and 14) hits `unimplemented!()`, and a choice byte beyond
34 hits `panic!("invalid confirmed service choice")`; an unconfirmed
request whose valid choice has no decoder (anything but 0 and 8) hits
`unimplemented!()`, and a choice byte beyond 15 hits `panic!("invalid
unconfirmed service choice")`. -/
theorem c3_unsupported_discriminants_abort :
    ∀ (rpAckDec : List Nat → Rdr → DecR ReadPropertyAck)
      (iamDec : List Nat → Rdr → DecR IAm)
      (whoisDec : List Nat → Rdr → DecR WhoIs),
    (∀ t, t ∈ ([2, 4, 5, 6, 7] : List Nat) →
      panicsD (ApplicationPdu.decode rpAckDec iamDec whoisDec [t <<< 4] ⟨0, 1⟩) = true)
    ∧ (∀ b, b < 256 → 7 < b >>> 4 →
      panicsD (ApplicationPdu.decode rpAckDec iamDec whoisDec [b] ⟨0, 1⟩) = true)
    ∧ panicsD (ApplicationPdu.decode rpAckDec iamDec whoisDec [0x00, 0x05, 0x01, 12] ⟨0, 4⟩) = true
    ∧ (∀ c, c < 35 → c ≠ 12 → c ≠ 14 →
      panicsD (ApplicationPdu.decode rpAckDec iamDec whoisDec [0x30, 1, c] ⟨0, 3⟩) = true)
    ∧ (∀ c, 34 < c →
      panicsD (ApplicationPdu.decode rpAckDec iamDec whoisDec [0x30, 1, c] ⟨0, 3⟩) = true)
    ∧ (∀ c, c < 16 → c ≠ 0 → c ≠ 8 →
      panicsD (ApplicationPdu.decode rpAckDec iamDec whoisDec [0x10, c] ⟨0, 2⟩) = true)
    ∧ (∀ c, 15 < c →
      panicsD (ApplicationPdu.decode rpAckDec iamDec whoisDec [0x10, c] ⟨0, 2⟩) = true) := by
  intro rpAckDec iamDec whoisDec
  refine ⟨?_, ?_, ?_, ?_, ?_, ?_, ?_⟩
  · intro t ht
    fin_cases ht <;> rfl
  · intro b hb hgt
    simp [ApplicationPdu.decode, readByteP, bindD, apduTypeFromU8_none hgt,
      panicsD, Error.isPanicked]
  · rfl
  · intro c hc h12 h14
    interval_cases c <;> first | rfl | omega
  · intro c hc
    simp [ApplicationPdu.decode, ComplexAck.decode, readByteP, bindD,
      ApduType.fromU8, confirmedChoiceFromU8_none hc, panicsD, Error.isPanicked]
  · intro c h16 h0 h8
    interval_cases c <;> first | rfl | omega
  · intro c hgt
    simp [ApplicationPdu.decode, UnconfirmedRequest.decode, readByteP, bindD,
      ApduType.fromU8, unconfirmedChoiceFromU8_none hgt, panicsD, Error.isPanicked]

/-- A stand-in `ReadPropertyAck` decoder for concrete instantiation. -/
def stubReadPropertyAckDec : List Nat → Rdr → DecR ReadPropertyAck :=
  fun _ r => .ok (⟨[]⟩, r)

/-- A stand-in `IAm` decoder for concrete instantiation. -/
def stubIAmDec : List Nat → Rdr → DecR IAm :=
  fun _ r => .ok (⟨[]⟩, r)

/-- A stand-in `WhoIs` decoder for concrete instantiation. -/
def stubWhoIsDec : List Nat → Rdr → DecR WhoIs :=
  fun _ r => .ok (⟨[]⟩, r)

/-- **C3 witness.** With concrete sub-decoders, decoding the concrete
SimpleAck control byte `0x20` aborts. -/
theorem c3_unsupported_discriminants_abort_witness :
    panicsD (ApplicationPdu.decode stubReadPropertyAckDec stubIAmDec stubWhoIsDec
      [2 <<< 4] ⟨0, 1⟩) = true :=
  (c3_unsupported_discriminants_abort stubReadPropertyAckDec stubIAmDec
    stubWhoIsDec).1 2 (by decide)

-- ## Link-layer framing (`src/network_protocol/data_link.rs`)

/-- Modelled from the spec: the `NetworkPdu` envelope (`network_pdu.rs` is
not under `src/`), carried opaquely; `DataLink::decode` is parametrized over
its decoder. -/
structure NetworkPdu where
  raw : List Nat
deriving DecidableEq, Repr

/-- `BVLL_TYPE_BACNET_IP`: the fixed link-frame type marker. -/
def BVLL_TYPE_BACNET_IP : Nat := 0x81

/-- `DataLinkFunction`: the closed 12-value link function enumeration. -/
inductive DataLinkFunction where
  | result | writeBroadcastDistributionTable | readBroadcastDistTable
  | readBroadcastDistTableAck | forwardedNpdu | registerForeignDevice
  | readForeignDeviceTable | readForeignDeviceTableAck
  | deleteForeignDeviceTableEntry | distributeBroadcastToNetwork
  | originalUnicastNpdu | originalBroadcastNpdu
deriving DecidableEq, Repr

/-- `impl TryFrom<u8> for DataLinkFunction`: `none` for values beyond 11. -/
def DataLinkFunction.tryFromU8 (n : Nat) : Option DataLinkFunction :=
  if n = 0 then some .result
  else if n = 1 then some .writeBroadcastDistributionTable
  else if n = 2 then some .readBroadcastDistTable
  else if n = 3 then some .readBroadcastDistTableAck
  else if n = 4 then some .forwardedNpdu
  else if n = 5 then some .registerForeignDevice
  else if n = 6 then some .readForeignDeviceTable
  else if n = 7 then some .readForeignDeviceTableAck
  else if n = 8 then some .deleteForeignDeviceTableEntry
  else if n = 9 then some .distributeBroadcastToNetwork
  else if n = 10 then some .originalUnicastNpdu
  else if n = 11 then some .originalBroadcastNpdu
  else none

/-- `DataLink`: function discriminant plus an optional network PDU. -/
structure DataLink where
  function : DataLinkFunction
  npdu : Option NetworkPdu
deriving DecidableEq, Repr

/-- `DataLink::decode`, parametrized over the network-PDU decoder: the type
marker (a mismatch is the source's `panic!`), the function byte through the
closed enumeration (a typed invalid-value error beyond 11), the 2-byte
big-endian declared length — failing with a typed `Length` error when it
exceeds the physical buffer size, before any payload parsing — then
`reader.set_len(len)` and, only for the two originating functions, the
network PDU decoded from the narrowed region. -/
def okOrD {α β : Type} (o : Option α) (e : Error) (k : α → DecR β) : DecR β :=
  match o with
  | none => .error e
  | some a => k a

/-- `okOrD` on a present value passes it to the continuation. -/
theorem okOrD_some {α β : Type} (a : α) (e : Error) (k : α → DecR β) :
    okOrD (some a) e k = k a := rfl

/-- `DataLink::decode`, parametrized over the network-PDU decoder (see the
doc comment above `okOrD` usage): type marker, function byte, declared
length, length check, `set_len`, then per-function payload handling. -/
def DataLink.decode (npduDec : List Nat → Rdr → DecR NetworkPdu)
    (buf : List Nat) (r : Rdr) : DecR DataLink :=
  bindD (readByteP buf r) fun bvllType r =>
  if bvllType == BVLL_TYPE_BACNET_IP then
    bindD (readByteP buf r) fun fb r =>
    okOrD (DataLinkFunction.tryFromU8 fb)
      (.invalidValue "bvll function value out of range") fun function =>
      bindD (readBytesP buf 2 r) fun lenBytes r =>
      let len := beVal lenBytes
      if len > buf.length then
        .error (.lengthErr "read buffer too small to fit entire bacnet payload")
      else
        let r : Rdr := ⟨r.index, len⟩
        match function with
        | .originalBroadcastNpdu | .originalUnicastNpdu =>
            bindD (npduDec buf r) fun npdu r => .ok (⟨function, some npdu⟩, r)
        | _ => .ok (⟨function, none⟩, r)
  else .error (.panicked "only BACNET_IP supported")

/-- `DataLinkFunction::try_from` succeeds below 12. -/
theorem dataLinkFunction_isSome_of_lt_12 {n : Nat} (h : n < 12) :
    (DataLinkFunction.tryFromU8 n).isSome := by
  interval_cases n <;> decide

-- ## C9: an oversized declared length fails with a Length error

/-- **C9.** For every link frame whose type marker and function byte are
valid, if the 2-byte big-endian declared length exceeds the physical buffer
size then `DataLink::decode` fails with the typed `Length` error — whatever
network-PDU decoder is plugged in and whatever payload bytes follow, i.e.
before any payload parsing is attempted. -/
theorem c9_oversized_length_fails (npduDec : List Nat → Rdr → DecR NetworkPdu)
    (f hi lo : Nat) (rest : List Nat)
    (hf : f < 12) (hhi : hi < 256) (hlo : lo < 256)
    (hlen : hi * 256 + lo > 4 + rest.length) :
    DataLink.decode npduDec (0x81 :: f :: hi :: lo :: rest) ⟨0, 4 + rest.length⟩
      = .error (.lengthErr "read buffer too small to fit entire bacnet payload") := by
  obtain ⟨fv, hfv⟩ := Option.isSome_iff_exists.mp (dataLinkFunction_isSome_of_lt_12 hf)
  have hb1 : readByteP (0x81 :: f :: hi :: lo :: rest) ⟨0, 4 + rest.length⟩
      = .ok (0x81, ⟨1, 4 + rest.length⟩) := by
    rw [readByteP, if_pos (by simp; try omega)]
    simp
  have hb2 : readByteP (0x81 :: f :: hi :: lo :: rest) ⟨1, 4 + rest.length⟩
      = .ok (f, ⟨2, 4 + rest.length⟩) := by
    rw [readByteP, if_pos (by simp; try omega)]
    simp
  have hb3 : readBytesP (0x81 :: f :: hi :: lo :: rest) 2 ⟨2, 4 + rest.length⟩
      = .ok ([hi, lo], ⟨4, 4 + rest.length⟩) := by
    rw [readBytesP, if_pos (by simp; try omega)]
    simp
  have hbe : beVal [hi, lo] = hi * 256 + lo := by
    simp [beVal]
  rw [DataLink.decode]
  simp only [hb1, bindD_ok, hb2, hb3, hfv, okOrD_some, hbe]
  rw [if_pos (by decide)]
  rw [if_pos (by simp only [List.length_cons]; omega)]

/-- A stand-in `NetworkPdu` decoder for concrete instantiation. -/
def stubNpduDec : List Nat → Rdr → DecR NetworkPdu :=
  fun _ r => .ok (⟨[]⟩, r)

/-- **C9 witness.** A concrete 4-byte frame declaring length `0xFFFF` fails
with the `Length` error. -/
theorem c9_oversized_length_fails_witness :
    DataLink.decode stubNpduDec [0x81, 10, 0xFF, 0xFF] ⟨0, 4⟩
      = .error (.lengthErr "read buffer too small to fit entire bacnet payload") :=
  c9_oversized_length_fails stubNpduDec 10 0xFF 0xFF [] (by decide) (by decide)
    (by decide) (by decide)

-- ## Positional facts for the newer cursor

/-- The byte at the boundary of a list split. -/
theorem getD_append_cons (pre post : List Nat) (b : Nat) :
    (pre ++ b :: post).getD pre.length 0 = b := by
  rw [List.getD_eq_getElem?_getD, List.getElem?_append_right (Nat.le_refl _)]
  simp

/-- Reading within the left part of an appended buffer ignores the right
part. -/
theorem getD_append_left (l1 l2 : List Nat) (i : Nat) (h : i < l1.length) :
    (l1 ++ l2).getD i 0 = l1.getD i 0 := by
  rw [List.getD_eq_getElem?_getD, List.getElem?_append_left h,
    ← List.getD_eq_getElem?_getD]

/-- A take-of-drop within the left part of an appended buffer ignores the
right part. -/
theorem take_drop_append (l1 l2 : List Nat) (i n : Nat) (h : i + n ≤ l1.length) :
    ((l1 ++ l2).drop i).take n = (l1.drop i).take n := by
  rw [List.drop_append_of_le_length (by omega)]
  rw [List.take_append_of_le_length (by simp; omega)]

/-- `read_byte` at a split position yields the boundary byte. -/
theorem readByteV2_at (pre post : List Nat) (b : Nat) (L : Nat)
    (hL : pre.length < L) :
    V2.readByte (pre ++ b :: post) ⟨pre.length, L⟩
      = (.ok b, ⟨pre.length + 1, L⟩) := by
  rw [V2.readByte, if_pos hL, getD_append_cons]

/-- `read_bytes` at a split position yields exactly the middle segment. -/
theorem readBytesV2_at (pre mid post : List Nat) (L : Nat)
    (hL : pre.length + mid.length ≤ L) :
    V2.readBytes (pre ++ (mid ++ post)) mid.length ⟨pre.length, L⟩
      = (.ok mid, ⟨pre.length + mid.length, L⟩) := by
  rw [V2.readBytes, if_pos hL, List.drop_left, List.take_left]

/-- An ok result of `bindP` factors through an ok result of its first step. -/
theorem bindP_ok_elim {α β : Type} {m : Except Error α × Rdr}
    {k : α → Rdr → Except Error β × Rdr} {b : β} {r' : Rdr}
    (h : bindP m k = (.ok b, r')) :
    ∃ a r1, m = (.ok a, r1) ∧ k a r1 = (.ok b, r') := by
  rcases m with ⟨res, r0⟩
  cases res with
  | error e => simp [bindP] at h
  | ok a => exact ⟨a, r0, rfl, h⟩

/-- `bindP` on an ok first step passes value and cursor to the
continuation. -/
theorem bindP_ok {α β : Type} (a : α) (r : Rdr)
    (k : α → Rdr → Except Error β × Rdr) :
    bindP (.ok a, r) k = k a r := rfl

/-- `bindP` propagates a failure together with its cursor. -/
theorem bindP_error {α β : Type} (e : Error) (r : Rdr)
    (k : α → Rdr → Except Error β × Rdr) :
    bindP (.error e, r) k = (.error e, r) := rfl

/-- Strict progress of a newer decode step on success: the cursor strictly
advances, stays within the declared end, and the end bound is preserved. -/
def OkAdvP {α : Type} (m : Rdr → Except Error α × Rdr) : Prop :=
  ∀ r a r', m r = (.ok a, r') →
    r.index < r'.index ∧ r'.index ≤ r.endIdx ∧ r'.endIdx = r.endIdx

/-- `read_byte` strictly advances on success. -/
theorem readByteV2_okAdv (buf : List Nat) : OkAdvP (V2.readByte buf) := by
  intro r a r' h
  rw [V2.readByte] at h
  split at h
  · simp only [Prod.mk.injEq] at h
    obtain ⟨-, hr⟩ := h
    subst hr
    next hlt => exact ⟨Nat.lt_succ_self _, hlt, rfl⟩
  · simp only [Prod.mk.injEq] at h
    obtain ⟨h1, -⟩ := h
    cases h1

/-- A successful `read_bytes` advances by its count and stays in bounds. -/
theorem readBytesV2_ok (buf : List Nat) (n : Nat) {r : Rdr} {bs : List Nat}
    {r' : Rdr} (h : V2.readBytes buf n r = (.ok bs, r')) :
    r.index + n ≤ r.endIdx ∧ r'.index = r.index + n ∧ r'.endIdx = r.endIdx := by
  rw [V2.readBytes] at h
  split at h
  · simp only [Prod.mk.injEq] at h
    obtain ⟨-, hr⟩ := h
    subst hr
    next hle => exact ⟨hle, rfl, rfl⟩
  · simp only [Prod.mk.injEq] at h
    obtain ⟨h1, -⟩ := h
    cases h1

/-- The newer `decode_tag_number` strictly advances on success. -/
theorem decodeTagNumberV2_okAdv (buf : List Nat) : OkAdvP (V2.decodeTagNumber buf) := by
  intro r a r' h
  rw [V2.decodeTagNumber] at h
  rcases bindP_ok_elim h with ⟨byte0, r1, h1, h2⟩
  have a1 := readByteV2_okAdv buf r byte0 r1 h1
  split at h2
  · split at h2
    · rcases bindP_ok_elim h2 with ⟨num, r2, h3, h4⟩
      have a2 := readByteV2_okAdv buf r1 num r2 h3
      simp only [Prod.mk.injEq] at h4
      obtain ⟨-, hr⟩ := h4
      subst hr
      omega
    · simp only [Prod.mk.injEq] at h2
      obtain ⟨-, hr⟩ := h2
      subst hr
      omega
  · split at h2
    · simp only [Prod.mk.injEq] at h2
      obtain ⟨-, hr⟩ := h2
      subst hr
      omega
    · simp only [Prod.mk.injEq] at h2
      obtain ⟨h3, -⟩ := h2
      cases h3

/-- The newer `Tag::decode` strictly advances on success. -/
theorem tagDecodeV2_okAdv (buf : List Nat) : OkAdvP (V2.Tag.decode buf) := by
  intro r a r' h
  rw [V2.Tag.decode] at h
  rcases bindP_ok_elim h with ⟨nb, r1, h1, h2⟩
  have a1 := decodeTagNumberV2_okAdv buf r nb r1 h1
  dsimp only at h2
  split at h2
  · rcases bindP_ok_elim h2 with ⟨b, r2, h3, h4⟩
    have a2 := readByteV2_okAdv buf r1 b r2 h3
    split at h4
    · rcases bindP_ok_elim h4 with ⟨bs, r3, h5, h6⟩
      have a3 := readBytesV2_ok buf 4 h5
      simp only [Prod.mk.injEq] at h6
      obtain ⟨-, hr⟩ := h6
      subst hr
      omega
    · split at h4
      · rcases bindP_ok_elim h4 with ⟨bs, r3, h5, h6⟩
        have a3 := readBytesV2_ok buf 2 h5
        simp only [Prod.mk.injEq] at h6
        obtain ⟨-, hr⟩ := h6
        subst hr
        omega
      · simp only [Prod.mk.injEq] at h4
        obtain ⟨-, hr⟩ := h4
        subst hr
        omega
  · split at h2
    · split at h2 <;>
      · simp only [Prod.mk.injEq] at h2
        obtain ⟨-, hr⟩ := h2
        subst hr
        omega
    · split at h2
      · split at h2 <;>
        · simp only [Prod.mk.injEq] at h2
          obtain ⟨-, hr⟩ := h2
          subst hr
          omega
      · simp only [Prod.mk.injEq] at h2
        obtain ⟨-, hr⟩ := h2
        subst hr
        omega

-- ## ReadRange / Ack data model (`src/application_protocol/services/read_range.rs`)

/-- Modelled from the spec: `Date` (`primitives/data_value.rs` not under
`src/`), a fixed four-byte scalar. -/
structure Date where
  year : Nat
  month : Nat
  day : Nat
  wday : Nat
deriving DecidableEq, Repr

/-- Modelled from the spec: `Date::decode` — four content bytes. -/
def Date.decodeP (buf : List Nat) (r : Rdr) : Except Error Date × Rdr :=
  bindP (V2.readBytes buf 4 r) fun bs r =>
    (.ok ⟨bs.getD 0 0, bs.getD 1 0, bs.getD 2 0, bs.getD 3 0⟩, r)

/-- Modelled from the spec: `Date::encode` content bytes. -/
def Date.encodeBytes (d : Date) : List Nat :=
  [d.year % 256, d.month % 256, d.day % 256, d.wday % 256]

/-- Modelled from the spec: `Time`, a fixed four-byte scalar. -/
structure Time where
  hour : Nat
  minute : Nat
  second : Nat
  hundredths : Nat
deriving DecidableEq, Repr

/-- Modelled from the spec: `Time::decode` — four content bytes. -/
def Time.decodeP (buf : List Nat) (r : Rdr) : Except Error Time × Rdr :=
  bindP (V2.readBytes buf 4 r) fun bs r =>
    (.ok ⟨bs.getD 0 0, bs.getD 1 0, bs.getD 2 0, bs.getD 3 0⟩, r)

/-- Modelled from the spec: `Time::encode` content bytes. -/
def Time.encodeBytes (t : Time) : List Nat :=
  [t.hour % 256, t.minute % 256, t.second % 256, t.hundredths % 256]

/-- Modelled from the spec: `BitString` (`primitives/data_value.rs` not
under `src/`) — an unused-bit count byte plus the bit bytes, borrowed from
the decode buffer. -/
structure BitString where
  unusedBits : Nat
  bits : List Nat
deriving DecidableEq, Repr

/-- Modelled from the spec: `BitString::decode` for a declared content
length: one unused-bit count byte, then `len - 1` bit bytes. -/
def BitString.decodeP (_pid : PropertyId) (len : Nat) (buf : List Nat)
    (r : Rdr) : Except Error BitString × Rdr :=
  if len == 0 then (.error (.invalidValue "bit string with zero length"), r)
  else
    bindP (V2.readByte buf r) fun ub r =>
    bindP (V2.readBytes buf (len - 1) r) fun bs r =>
      (.ok ⟨ub, bs⟩, r)

/-- Modelled from the spec: `BitString::encode_context` — a context tag
whose value is the content length, then the content. -/
def BitString.encodeContextBytes (tagnum : Nat) (b : BitString) : List Nat :=
  V2.Tag.encodeBytes ⟨.contextSpecific tagnum, 1 + b.bits.length⟩
    ++ [b.unusedBits % 256] ++ b.bits

/-- `ReadRangeByPosition`: by-position selector fields. -/
structure ReadRangeByPosition where
  index : Nat
  count : Nat
deriving DecidableEq, Repr

/-- `ReadRangeBySequence`: by-sequence selector fields. -/
structure ReadRangeBySequence where
  sequenceNum : Nat
  count : Nat
deriving DecidableEq, Repr

/-- `ReadRangeByTime`: by-time selector fields. -/
structure ReadRangeByTime where
  date : Date
  time : Time
  count : Nat
deriving DecidableEq, Repr

/-- `ReadRangeRequestType`: exactly one of the four mutually exclusive
selector variants. -/
inductive ReadRangeRequestType where
  | byPosition (x : ReadRangeByPosition)
  | bySequence (x : ReadRangeBySequence)
  | byTime (x : ReadRangeByTime)
  | all
deriving DecidableEq, Repr

/-- `ReadRange` (the request). -/
structure ReadRange where
  objectId : ObjectId
  propertyId : PropertyId
  arrayIndex : Nat
  requestType : ReadRangeRequestType
deriving DecidableEq, Repr

/-- The `u32 as i32` cast. -/
def u32AsI32 (n : Nat) : Int :=
  if n % 4294967296 < 2147483648 then (n % 4294967296 : Int)
  else (n % 4294967296 : Int) - 4294967296

/-- `ReadRange::encode`, as the appended bytes: context tag 0 object id,
context tag 1 property id, optional context tag 2 array index, then the
selector block — by-position and by-sequence wrap an application unsigned
and an application signed count in opening/closing tags 3 and 6, by-time
wraps date, time and signed count in tags 7, and `All` emits nothing. -/
def ReadRange.encodeBytes (v : ReadRange) : List Nat :=
  encodeContextObjectIdBytes 0 v.objectId
  ++ encodeContextEnumeratedBytes 1 v.propertyId
  ++ (if v.arrayIndex ≠ BACNET_ARRAY_ALL
      then encodeContextUnsignedBytes 2 v.arrayIndex else [])
  ++ match v.requestType with
     | .byPosition x =>
         encodeOpeningTagBytes 3
         ++ encodeApplicationUnsignedBytes x.index
         ++ encodeApplicationSignedBytes (u32AsI32 x.count)
         ++ encodeClosingTagBytes 3
     | .bySequence x =>
         encodeOpeningTagBytes 6
         ++ encodeApplicationUnsignedBytes x.sequenceNum
         ++ encodeApplicationSignedBytes (u32AsI32 x.count)
         ++ encodeClosingTagBytes 6
     | .byTime x =>
         encodeOpeningTagBytes 7
         ++ x.date.encodeBytes
         ++ x.time.encodeBytes
         ++ encodeApplicationSignedBytes (u32AsI32 x.count)
         ++ encodeClosingTagBytes 7
     | .all => []

/-- `ReadRange::encode` against a write buffer. -/
def ReadRange.encode (v : ReadRange) (w : List Nat) : List Nat :=
  w ++ v.encodeBytes

/-- `ReadRange::decode`: object id, property id, an optional array index
probe, then the selector dispatch on the following tag — only the
by-position opening tag 3 is serviced (an unsigned index, a count accepted
from an unsigned tag or from a non-negative signed tag, negative counts
rejected as invalid values, then the closing tag 3); every other opening
number is a typed tag-not-supported failure. The count-field match is
factored out as `decodeCount`. -/
def ReadRange.decodeCount (buf : List Nat) (countTag : V2.Tag) (r : Rdr) :
    Except Error Nat × Rdr :=
  match countTag.number with
  | .application .unsignedInt =>
      bindP (decodeUnsignedP buf countTag.value r) fun c r =>
        (.ok (c % 4294967296), r)
  | .application .signedInt =>
      bindP (decodeSignedP buf countTag.value r) fun c r =>
        if c < 0 then
          (.error (.invalidValue "ReadRange count cannot be negative"), r)
        else (.ok c.toNat, r)
  | _ => (.error (.tagNotSupported "ReadRange count tag"), r)

/-- The selector dispatch of `ReadRange::decode` (the `match tag.number`
over the request-type block, factored out so it can be named): only the
by-position opening tag 3 is serviced; every other number is a typed
tag-not-supported failure. -/
def ReadRange.decodeSelector (buf : List Nat) (objectId : ObjectId)
    (propertyId : PropertyId) (arrayIndex : Nat) (tag : V2.Tag) (r : Rdr) :
    Except Error ReadRange × Rdr :=
  if tag.number == .contextSpecificOpening 3 then
    bindP (V2.Tag.decodeExpected buf (.application .unsignedInt)
      "ReadRange decode index" r) fun indexTag r =>
    bindP (decodeUnsignedP buf indexTag.value r) fun indexV r =>
    bindP (V2.Tag.decode buf r) fun countTag r =>
    bindP (ReadRange.decodeCount buf countTag r) fun count r =>
    bindP (V2.Tag.decodeExpected buf (.contextSpecificClosing 3)
      "ReadRange decode closing position" r) fun _ r =>
    (.ok ⟨objectId, propertyId, arrayIndex,
          .byPosition ⟨indexV % 4294967296, count⟩⟩, r)
  else (.error (.tagNotSupported "ReadRange opening tag"), r)

def ReadRange.decode (buf : List Nat) (r : Rdr) : Except Error ReadRange × Rdr :=
  bindP (decodeContextObjectId buf 0 "ReadRange decode object_id" r) fun objectId r =>
  bindP (decodeContextPropertyId buf 1 "ReadRange decode property_id" r) fun propertyId r =>
  bindP (V2.Tag.decode buf r) fun tag0 r =>
  if tag0.number == .contextSpecific 2 then
    bindP (decodeUnsignedP buf tag0.value r) fun v r =>
    bindP (V2.Tag.decode buf r) fun tag1 r =>
    ReadRange.decodeSelector buf objectId propertyId (v % 4294967296) tag1 r
  else
    ReadRange.decodeSelector buf objectId propertyId BACNET_ARRAY_ALL tag0 r

-- ## Positional evaluation lemmas for the newer decoders

/-- A single-byte tag (no extended number, no extended value) decodes at any
in-bounds cursor position exactly as it does alone, advancing by one. -/
theorem tagDecodeV2_single (buf : List Nat) (r : Rdr) (b : Nat) (t : V2.Tag)
    (hb : buf.getD r.index 0 = b) (hlt : r.index < r.endIdx)
    (hone : V2.Tag.decode [b] ⟨0, 1⟩ = (.ok t, ⟨1, 1⟩)) :
    V2.Tag.decode buf r = (.ok t, ⟨r.index + 1, r.endIdx⟩) := by
  have hread : V2.readByte buf r = (.ok b, ⟨r.index + 1, r.endIdx⟩) := by
    rw [V2.readByte, if_pos hlt, hb]
  have hread1 : V2.readByte [b] ⟨0, 1⟩ = (.ok b, ⟨1, 1⟩) := by
    rw [V2.readByte, if_pos (by decide)]
    rfl
  rw [V2.Tag.decode, V2.decodeTagNumber] at hone ⊢
  simp only [hread, hread1, bindP_ok] at hone ⊢
  by_cases hctx : isContextSpecific b
  · by_cases hext : isExtendedTagNumber b
    · simp [hctx, hext, V2.readByte, bindP] at hone
    · simp only [hctx, hext, if_true, if_false, Bool.false_eq_true] at hone ⊢
      by_cases hev : isExtendedValue b
      · simp [hev, V2.readByte, bindP] at hone
      · simp only [hev, if_false, Bool.false_eq_true, bindP_ok] at hone ⊢
        by_cases hop : isOpeningTag b
        · simp only [hop, if_true] at hone ⊢
          simp only [Prod.mk.injEq, Except.ok.injEq] at hone ⊢
          exact ⟨hone.1, trivial⟩
        · simp only [hop, if_false, Bool.false_eq_true] at hone ⊢
          by_cases hcl : isClosingTag b
          · simp only [hcl, if_true] at hone ⊢
            simp only [Prod.mk.injEq, Except.ok.injEq] at hone ⊢
            exact ⟨hone.1, trivial⟩
          · simp only [hcl, if_false, Bool.false_eq_true] at hone ⊢
            simp only [Prod.mk.injEq, Except.ok.injEq] at hone ⊢
            exact ⟨hone.1, trivial⟩
  · rcases hfu : ApplicationTagNumber.fromU8 (b >>> 4) with _ | num
    · simp [hctx, hfu, bindP] at hone
    · simp only [hctx, hfu, if_false, Bool.false_eq_true, bindP_ok] at hone ⊢
      by_cases hev : isExtendedValue b
      · simp [hev, V2.readByte, bindP] at hone
      · simp only [hev, if_false, Bool.false_eq_true] at hone ⊢
        by_cases hop : isOpeningTag b
        · simp only [hop, if_true] at hone ⊢
          simp only [Prod.mk.injEq, Except.ok.injEq] at hone ⊢
          exact ⟨hone.1, trivial⟩
        · simp only [hop, if_false, Bool.false_eq_true] at hone ⊢
          by_cases hcl : isClosingTag b
          · simp only [hcl, if_true] at hone ⊢
            simp only [Prod.mk.injEq, Except.ok.injEq] at hone ⊢
            exact ⟨hone.1, trivial⟩
          · simp only [hcl, if_false, Bool.false_eq_true] at hone ⊢
            simp only [Prod.mk.injEq, Except.ok.injEq] at hone ⊢
            exact ⟨hone.1, trivial⟩

/-- A take-of-drop at a split position extracts exactly the middle
segment. -/
theorem take_drop_middle (pre mid post : List Nat) :
    ((pre ++ (mid ++ post)).drop pre.length).take mid.length = mid := by
  rw [List.drop_left, List.take_left]

/-- `decode_expected` on a single-byte tag whose number matches. -/
theorem tagDecodeExpectedV2_single (buf : List Nat) (r : Rdr) (b : Nat)
    (t : V2.Tag) (expected : V2.TagNumber) (msg : String)
    (hb : buf.getD r.index 0 = b) (hlt : r.index < r.endIdx)
    (hone : V2.Tag.decode [b] ⟨0, 1⟩ = (.ok t, ⟨1, 1⟩))
    (hmatch : (t.number == expected) = true) :
    V2.Tag.decodeExpected buf expected msg r = (.ok t, ⟨r.index + 1, r.endIdx⟩) := by
  rw [V2.Tag.decodeExpected, tagDecodeV2_single buf r b t hb hlt hone, bindP_ok,
    if_pos hmatch]

/-- `decode_unsigned` over the bytes sitting at the cursor. -/
theorem decodeUnsignedP_at (buf : List Nat) (n : Nat) (r : Rdr) (bs : List Nat)
    (hn : bs.length = n) (hlen : r.index + n ≤ r.endIdx)
    (htake : (buf.drop r.index).take n = bs) :
    decodeUnsignedP buf n r = (.ok (beVal bs), ⟨r.index + n, r.endIdx⟩) := by
  rw [decodeUnsignedP, V2.readBytes, if_pos hlen, htake, bindP_ok]

/-- `decode_signed` over the bytes sitting at the cursor. -/
theorem decodeSignedP_at (buf : List Nat) (n : Nat) (r : Rdr) (bs : List Nat)
    (hn : bs.length = n) (hlen : r.index + n ≤ r.endIdx)
    (htake : (buf.drop r.index).take n = bs) :
    decodeSignedP buf n r = (.ok (twosComp bs), ⟨r.index + n, r.endIdx⟩) := by
  rw [decodeSignedP, V2.readBytes, if_pos hlen, htake, bindP_ok]

/-- `be32` always produces four bytes. -/
theorem be32_length (v : Nat) : (be32 v).length = 4 := rfl

/-- The big-endian value of `be32 v` is `v` reduced to 32 bits. -/
theorem beVal_be32 (v : Nat) : beVal (be32 v) = v % 4294967296 := by
  simp [beVal, be32]
  omega

/-- The packed object identifier fits in 32 bits. -/
theorem toU32_lt (oid : ObjectId) : ObjectId.toU32 oid < 4294967296 := by
  unfold ObjectId.toU32
  omega

/-- Unpacking the packed object identifier recovers an in-range object
id. -/
theorem decodeObjectIdContent_toU32 (oid : ObjectId)
    (h1 : oid.objectType < 1024) (h2 : oid.id < 4194304) :
    decodeObjectIdContent (ObjectId.toU32 oid) = oid := by
  rcases oid with ⟨ot, i⟩
  simp only [ObjectId.toU32, decodeObjectIdContent] at *
  simp only [ObjectId.mk.injEq]
  constructor <;> omega

/-- `decode_context_object_id` over an encoded object id at the cursor. -/
theorem decodeContextObjectId_at (buf : List Nat) (tagnum : Nat) (msg : String)
    (r : Rdr) (oid : ObjectId)
    (htn : tagnum ≤ 14)
    (hb : buf.getD r.index 0 = ((tagnum <<< 4) ||| 8 ||| 4))
    (hlen : r.index + 5 ≤ r.endIdx)
    (htake : (buf.drop (r.index + 1)).take 4 = be32 oid.toU32)
    (h1 : oid.objectType < 1024) (h2 : oid.id < 4194304) :
    decodeContextObjectId buf tagnum msg r = (.ok oid, ⟨r.index + 5, r.endIdx⟩) := by
  have hone : V2.Tag.decode [(tagnum <<< 4) ||| 8 ||| 4] ⟨0, 1⟩
      = (.ok ⟨.contextSpecific tagnum, 4⟩, ⟨1, 1⟩) := by
    interval_cases tagnum <;> decide
  rw [decodeContextObjectId,
    tagDecodeExpectedV2_single buf r _ _ _ msg hb (by omega) hone (by simp),
    bindP_ok, ObjectId.decodeP,
    decodeUnsignedP_at buf 4 ⟨r.index + 1, r.endIdx⟩ (be32 oid.toU32) rfl
      (show r.index + 1 + 4 ≤ r.endIdx by omega) htake,
    bindP_ok, beVal_be32, Nat.mod_eq_of_lt (toU32_lt oid),
    decodeObjectIdContent_toU32 oid h1 h2]

/-- `decode_context_property_id` over an encoded property id at the
cursor. -/
theorem decodeContextPropertyId_at (buf : List Nat) (tagnum : Nat) (msg : String)
    (r : Rdr) (pid : Nat)
    (htn : tagnum ≤ 14)
    (hb : buf.getD r.index 0 = ((tagnum <<< 4) ||| 8 ||| 4))
    (hlen : r.index + 5 ≤ r.endIdx)
    (htake : (buf.drop (r.index + 1)).take 4 = be32 pid)
    (hpid : pid < 4294967296) :
    decodeContextPropertyId buf tagnum msg r = (.ok pid, ⟨r.index + 5, r.endIdx⟩) := by
  have hone : V2.Tag.decode [(tagnum <<< 4) ||| 8 ||| 4] ⟨0, 1⟩
      = (.ok ⟨.contextSpecific tagnum, 4⟩, ⟨1, 1⟩) := by
    interval_cases tagnum <;> decide
  rw [decodeContextPropertyId,
    tagDecodeExpectedV2_single buf r _ _ _ msg hb (by omega) hone (by simp),
    bindP_ok,
    decodeUnsignedP_at buf 4 ⟨r.index + 1, r.endIdx⟩ (be32 pid) rfl
      (show r.index + 1 + 4 ≤ r.endIdx by omega) htake,
    bindP_ok, beVal_be32, Nat.mod_eq_of_lt hpid, Nat.mod_eq_of_lt hpid]


/-- The single-byte application unsigned-integer tag with a small value. -/
theorem unsignedTagByte_decode (n : Nat) (hn : n ≤ 4) :
    V2.Tag.decode [0x20 ||| n] ⟨0, 1⟩
      = (.ok ⟨.application .unsignedInt, n⟩, ⟨1, 1⟩) := by
  interval_cases n <;> decide

/-- The single-byte application signed-integer tag with a small value. -/
theorem signedTagByte_decode (n : Nat) (hn : n ≤ 4) :
    V2.Tag.decode [0x30 ||| n] ⟨0, 1⟩
      = (.ok ⟨.application .signedInt, n⟩, ⟨1, 1⟩) := by
  interval_cases n <;> decide

/-- Decoding an encoded by-position request (entire-array sentinel case)
runs the fixed prefix of object id, property id, opening tag 3 and index,
and reduces to the count decode followed by the closing tag. -/
theorem readRange_byPosition_decode_shape (oid : ObjectId) (pid idx : Nat)
    (ctb : Nat) (cbs : List Nat) (t_c : V2.Tag)
    (h1 : oid.objectType < 1024) (h2 : oid.id < 4194304)
    (hpid : pid < 4294967296) (hidx : idx < 4294967296)
    (hone : V2.Tag.decode [ctb] ⟨0, 1⟩ = (.ok t_c, ⟨1, 1⟩)) :
    ReadRange.decode
      (encodeContextObjectIdBytes 0 oid
        ++ (encodeContextEnumeratedBytes 1 pid
        ++ (encodeOpeningTagBytes 3
        ++ (encodeApplicationUnsignedBytes idx
        ++ ((ctb :: cbs) ++ encodeClosingTagBytes 3)))))
      ⟨0, 18 + cbs.length⟩
      = bindP (ReadRange.decodeCount
          (encodeContextObjectIdBytes 0 oid
            ++ (encodeContextEnumeratedBytes 1 pid
            ++ (encodeOpeningTagBytes 3
            ++ (encodeApplicationUnsignedBytes idx
            ++ ((ctb :: cbs) ++ encodeClosingTagBytes 3)))))
          t_c ⟨17, 18 + cbs.length⟩)
          (fun count r =>
            bindP (V2.Tag.decodeExpected
              (encodeContextObjectIdBytes 0 oid
                ++ (encodeContextEnumeratedBytes 1 pid
                ++ (encodeOpeningTagBytes 3
                ++ (encodeApplicationUnsignedBytes idx
                ++ ((ctb :: cbs) ++ encodeClosingTagBytes 3)))))
              (.contextSpecificClosing 3) "ReadRange decode closing position" r)
              fun _ r =>
                (.ok ⟨oid, pid, BACNET_ARRAY_ALL,
                      .byPosition ⟨idx, count⟩⟩, r)) := by
  set buf := encodeContextObjectIdBytes 0 oid
    ++ (encodeContextEnumeratedBytes 1 pid
    ++ (encodeOpeningTagBytes 3
    ++ (encodeApplicationUnsignedBytes idx
    ++ ((ctb :: cbs) ++ encodeClosingTagBytes 3)))) with hbufdef
  have e1 : encodeContextObjectIdBytes 0 oid = 12 :: be32 oid.toU32 := by
    simp [encodeContextObjectIdBytes, V2.Tag.encodeBytes]
  have e2 : encodeContextEnumeratedBytes 1 pid = 28 :: be32 pid := by
    simp [encodeContextEnumeratedBytes, encodeContextUnsignedBytes,
      V2.Tag.encodeBytes, Nat.mod_eq_of_lt hpid]
  have e3 : encodeOpeningTagBytes 3 = [62] := by
    simp [encodeOpeningTagBytes, V2.Tag.encodeBytes]
  have e4 : encodeApplicationUnsignedBytes idx = 36 :: be32 idx := by
    simp [encodeApplicationUnsignedBytes, V2.Tag.encodeBytes,
      ApplicationTagNumber.toU8, Nat.mod_eq_of_lt hidx]
  have e5 : encodeClosingTagBytes 3 = [63] := by
    simp [encodeClosingTagBytes, V2.Tag.encodeBytes]
  have hbuf : buf = (12 :: be32 oid.toU32)
      ++ ((28 :: be32 pid) ++ ([62] ++ ((36 :: be32 idx) ++ ((ctb :: cbs) ++ [63])))) := by
    rw [hbufdef, e1, e2, e3, e4, e5]
  have take4_be32 : ∀ (v : Nat) (rest : List Nat), (be32 v ++ rest).take 4 = be32 v := by
    intro v rest
    rw [show (4 : Nat) = (be32 v).length from rfl, List.take_left]
  have hA : decodeContextObjectId buf 0 "ReadRange decode object_id" ⟨0, 18 + cbs.length⟩
      = (.ok oid, ⟨5, 18 + cbs.length⟩) := by
    apply decodeContextObjectId_at buf 0 _ ⟨0, 18 + cbs.length⟩ oid (by omega) ?_ ?_ ?_ h1 h2
    · rw [hbuf]
      simp
    · show 0 + 5 ≤ 18 + cbs.length
      omega
    · show (buf.drop (0 + 1)).take 4 = be32 oid.toU32
      rw [hbuf]
      simp only [List.cons_append, List.drop_succ_cons, List.drop_zero, List.append_assoc]
      exact take4_be32 _ _
  have hs5 : buf = (12 :: be32 oid.toU32)
      ++ 28 :: (be32 pid ++ (62 :: (36 :: (be32 idx ++ (ctb :: (cbs ++ [63])))))) := by
    rw [hbuf]
    simp [List.append_assoc]
  have hl5 : (12 :: be32 oid.toU32).length = 5 := by simp [be32]
  have hs6 : buf = ((12 :: be32 oid.toU32) ++ [28])
      ++ (be32 pid ++ (62 :: (36 :: (be32 idx ++ (ctb :: (cbs ++ [63])))))) := by
    rw [hbuf]
    simp [List.append_assoc]
  have hl6 : ((12 :: be32 oid.toU32) ++ [28]).length = 6 := by simp [be32]
  have hB : decodeContextPropertyId buf 1 "ReadRange decode property_id" ⟨5, 18 + cbs.length⟩
      = (.ok pid, ⟨10, 18 + cbs.length⟩) := by
    apply decodeContextPropertyId_at buf 1 _ ⟨5, 18 + cbs.length⟩ pid (by omega) ?_ ?_ ?_ hpid
    · show buf.getD 5 0 = (1 <<< 4) ||| 8 ||| 4
      rw [hs5, ← hl5, getD_append_cons]
      decide
    · show 5 + 5 ≤ 18 + cbs.length
      omega
    · show (buf.drop (5 + 1)).take 4 = be32 pid
      rw [hs6, show (5 + 1 : Nat) = ((12 :: be32 oid.toU32) ++ [28]).length from hl6.symm,
        List.drop_left]
      exact take4_be32 _ _
  have hs10 : buf = ((12 :: be32 oid.toU32) ++ (28 :: be32 pid))
      ++ 62 :: (36 :: (be32 idx ++ (ctb :: (cbs ++ [63])))) := by
    rw [hbuf]
    simp [List.append_assoc]
  have hl10 : ((12 :: be32 oid.toU32) ++ (28 :: be32 pid)).length = 10 := by simp [be32]
  have hOpen : V2.Tag.decode buf ⟨10, 18 + cbs.length⟩
      = (.ok ⟨.contextSpecificOpening 3, 0⟩, ⟨11, 18 + cbs.length⟩) := by
    apply tagDecodeV2_single buf ⟨10, 18 + cbs.length⟩ 62 _ ?_ ?_ (by decide)
    · show buf.getD 10 0 = 62
      rw [hs10, ← hl10, getD_append_cons]
    · show 10 < 18 + cbs.length
      omega
  have hs11 : buf = (((12 :: be32 oid.toU32) ++ (28 :: be32 pid)) ++ [62])
      ++ 36 :: (be32 idx ++ (ctb :: (cbs ++ [63]))) := by
    rw [hbuf]
    simp [List.append_assoc]
  have hl11 : ((((12 :: be32 oid.toU32) ++ (28 :: be32 pid)) ++ [62])).length = 11 := by
    simp [be32]
  have hIdxTag : V2.Tag.decodeExpected buf (.application .unsignedInt)
      "ReadRange decode index" ⟨11, 18 + cbs.length⟩
      = (.ok ⟨.application .unsignedInt, 4⟩, ⟨12, 18 + cbs.length⟩) := by
    apply tagDecodeExpectedV2_single buf ⟨11, 18 + cbs.length⟩ 36 _ _ _ ?_ ?_ (by decide)
      (by decide)
    · show buf.getD 11 0 = 36
      rw [hs11, ← hl11, getD_append_cons]
    · show 11 < 18 + cbs.length
      omega
  have hs12 : buf = ((((12 :: be32 oid.toU32) ++ (28 :: be32 pid)) ++ [62]) ++ [36])
      ++ (be32 idx ++ (ctb :: (cbs ++ [63]))) := by
    rw [hbuf]
    simp [List.append_assoc]
  have hl12 : (((((12 :: be32 oid.toU32) ++ (28 :: be32 pid)) ++ [62]) ++ [36])).length = 12 := by
    simp [be32]
  have hIdx : decodeUnsignedP buf 4 ⟨12, 18 + cbs.length⟩
      = (.ok (beVal (be32 idx)), ⟨16, 18 + cbs.length⟩) := by
    apply decodeUnsignedP_at buf 4 ⟨12, 18 + cbs.length⟩ (be32 idx) rfl ?_ ?_
    · show 12 + 4 ≤ 18 + cbs.length
      omega
    · show (buf.drop 12).take 4 = be32 idx
      rw [hs12]
      have hdrop := List.drop_left
        ((((12 :: be32 oid.toU32) ++ (28 :: be32 pid)) ++ [62]) ++ [36])
        (be32 idx ++ (ctb :: (cbs ++ [63])))
      rw [hl12] at hdrop
      rw [hdrop]
      exact take4_be32 _ _
  have hs16 : buf = (((((12 :: be32 oid.toU32) ++ (28 :: be32 pid)) ++ [62]) ++ [36])
      ++ be32 idx) ++ ctb :: (cbs ++ [63]) := by
    rw [hbuf]
    simp [List.append_assoc]
  have hl16 : ((((((12 :: be32 oid.toU32) ++ (28 :: be32 pid)) ++ [62]) ++ [36])
      ++ be32 idx)).length = 16 := by
    simp [be32]
  have hTagC : V2.Tag.decode buf ⟨16, 18 + cbs.length⟩
      = (.ok t_c, ⟨17, 18 + cbs.length⟩) := by
    apply tagDecodeV2_single buf ⟨16, 18 + cbs.length⟩ ctb t_c ?_ ?_ hone
    · show buf.getD 16 0 = ctb
      rw [hs16, ← hl16, getD_append_cons]
    · show 16 < 18 + cbs.length
      omega
  rw [ReadRange.decode, hA, bindP_ok, hB, bindP_ok, hOpen, bindP_ok]
  rw [if_neg (by decide)]
  rw [ReadRange.decodeSelector, if_pos (by decide)]
  rw [hIdxTag, bindP_ok, hIdx, bindP_ok, hTagC, bindP_ok]
  simp only [beVal_be32, Nat.mod_mod, Nat.mod_eq_of_lt hidx]


/-- The count content bytes sit at offset 17 of the encoded by-position
request. -/
theorem readRange_take_count_at (oid : ObjectId) (pid idx ctb : Nat)
    (cbs : List Nat) (hpid : pid < 4294967296) (hidx : idx < 4294967296) :
    ((encodeContextObjectIdBytes 0 oid
        ++ (encodeContextEnumeratedBytes 1 pid
        ++ (encodeOpeningTagBytes 3
        ++ (encodeApplicationUnsignedBytes idx
        ++ ((ctb :: cbs) ++ encodeClosingTagBytes 3))))).drop 17).take cbs.length
      = cbs := by
  have e1 : encodeContextObjectIdBytes 0 oid = 12 :: be32 oid.toU32 := by
    simp [encodeContextObjectIdBytes, V2.Tag.encodeBytes]
  have e2 : encodeContextEnumeratedBytes 1 pid = 28 :: be32 pid := by
    simp [encodeContextEnumeratedBytes, encodeContextUnsignedBytes,
      V2.Tag.encodeBytes, Nat.mod_eq_of_lt hpid]
  have e3 : encodeOpeningTagBytes 3 = [62] := by
    simp [encodeOpeningTagBytes, V2.Tag.encodeBytes]
  have e4 : encodeApplicationUnsignedBytes idx = 36 :: be32 idx := by
    simp [encodeApplicationUnsignedBytes, V2.Tag.encodeBytes,
      ApplicationTagNumber.toU8, Nat.mod_eq_of_lt hidx]
  have e5 : encodeClosingTagBytes 3 = [63] := by
    simp [encodeClosingTagBytes, V2.Tag.encodeBytes]
  rw [e1, e2, e3, e4, e5]
  have hs : (12 :: be32 oid.toU32)
      ++ ((28 :: be32 pid) ++ ([62] ++ ((36 :: be32 idx) ++ ((ctb :: cbs) ++ [63]))))
      = ((((((12 :: be32 oid.toU32) ++ (28 :: be32 pid)) ++ [62]) ++ [36])
          ++ be32 idx) ++ [ctb]) ++ (cbs ++ [63]) := by
    simp [List.append_assoc]
  rw [hs]
  have hl : (((((((12 :: be32 oid.toU32) ++ (28 :: be32 pid)) ++ [62]) ++ [36])
      ++ be32 idx) ++ [ctb])).length = 17 := by
    simp [be32]
  have hdrop := List.drop_left
    ((((((12 :: be32 oid.toU32) ++ (28 :: be32 pid)) ++ [62]) ++ [36])
        ++ be32 idx) ++ [ctb]) (cbs ++ [63])
  rw [hl] at hdrop
  rw [hdrop, List.take_left]

/-- The closing tag 3 sits right after the count content bytes of the
encoded by-position request. -/
theorem readRange_closing_at (oid : ObjectId) (pid idx ctb : Nat)
    (cbs : List Nat) (hpid : pid < 4294967296) (hidx : idx < 4294967296) :
    V2.Tag.decodeExpected
      (encodeContextObjectIdBytes 0 oid
        ++ (encodeContextEnumeratedBytes 1 pid
        ++ (encodeOpeningTagBytes 3
        ++ (encodeApplicationUnsignedBytes idx
        ++ ((ctb :: cbs) ++ encodeClosingTagBytes 3)))))
      (.contextSpecificClosing 3) "ReadRange decode closing position"
      ⟨17 + cbs.length, 18 + cbs.length⟩
      = (.ok ⟨.contextSpecificClosing 3, 0⟩,
         ⟨17 + cbs.length + 1, 18 + cbs.length⟩) := by
  have e1 : encodeContextObjectIdBytes 0 oid = 12 :: be32 oid.toU32 := by
    simp [encodeContextObjectIdBytes, V2.Tag.encodeBytes]
  have e2 : encodeContextEnumeratedBytes 1 pid = 28 :: be32 pid := by
    simp [encodeContextEnumeratedBytes, encodeContextUnsignedBytes,
      V2.Tag.encodeBytes, Nat.mod_eq_of_lt hpid]
  have e3 : encodeOpeningTagBytes 3 = [62] := by
    simp [encodeOpeningTagBytes, V2.Tag.encodeBytes]
  have e4 : encodeApplicationUnsignedBytes idx = 36 :: be32 idx := by
    simp [encodeApplicationUnsignedBytes, V2.Tag.encodeBytes,
      ApplicationTagNumber.toU8, Nat.mod_eq_of_lt hidx]
  have e5 : encodeClosingTagBytes 3 = [63] := by
    simp [encodeClosingTagBytes, V2.Tag.encodeBytes]
  apply tagDecodeExpectedV2_single _ ⟨17 + cbs.length, 18 + cbs.length⟩ 63 _ _ _ ?_ ?_
    (by decide) (by decide)
  · show _ = (63 : Nat)
    rw [e1, e2, e3, e4, e5]
    have hs : (12 :: be32 oid.toU32)
        ++ ((28 :: be32 pid) ++ ([62] ++ ((36 :: be32 idx) ++ ((ctb :: cbs) ++ [63]))))
        = (((((((12 :: be32 oid.toU32) ++ (28 :: be32 pid)) ++ [62]) ++ [36])
            ++ be32 idx) ++ [ctb]) ++ cbs) ++ 63 :: [] := by
      simp [List.append_assoc]
    rw [hs]
    have hl : ((((((((12 :: be32 oid.toU32) ++ (28 :: be32 pid)) ++ [62]) ++ [36])
        ++ be32 idx) ++ [ctb]) ++ cbs)).length = 17 + cbs.length := by
      simp [be32]
      omega
    have hg := getD_append_cons
      (((((((12 :: be32 oid.toU32) ++ (28 :: be32 pid)) ++ [62]) ++ [36])
          ++ be32 idx) ++ [ctb]) ++ cbs) [] 63
    rw [hl] at hg
    exact hg
  · show 17 + cbs.length < 18 + cbs.length
    omega


/-- **C7.** In the by-position selector of `ReadRange::decode`, a count
carried in an application unsigned tag is accepted, a count carried in an
application signed tag whose decoded twos-complement value is non-negative
is accepted, and a signed-tagged count whose decoded value is negative is
rejected with the typed `InvalidValue` error. -/
theorem c7_count_sign_handling (oid : ObjectId) (pid idx : Nat) (cbs : List Nat)
    (h1 : oid.objectType < 1024) (h2 : oid.id < 4194304)
    (hpid : pid < 4294967296) (hidx : idx < 4294967296) (hn : cbs.length ≤ 4) :
    ((ReadRange.decode (encodeContextObjectIdBytes 0 oid
        ++ (encodeContextEnumeratedBytes 1 pid
        ++ (encodeOpeningTagBytes 3
        ++ (encodeApplicationUnsignedBytes idx
        ++ (((0x20 ||| cbs.length) :: cbs) ++ encodeClosingTagBytes 3))))) ⟨0, 18 + cbs.length⟩).1
      = .ok ⟨oid, pid, BACNET_ARRAY_ALL, .byPosition ⟨idx, beVal cbs % 4294967296⟩⟩)
    ∧ (0 ≤ twosComp cbs →
      (ReadRange.decode (encodeContextObjectIdBytes 0 oid
        ++ (encodeContextEnumeratedBytes 1 pid
        ++ (encodeOpeningTagBytes 3
        ++ (encodeApplicationUnsignedBytes idx
        ++ (((0x30 ||| cbs.length) :: cbs) ++ encodeClosingTagBytes 3))))) ⟨0, 18 + cbs.length⟩).1
        = .ok ⟨oid, pid, BACNET_ARRAY_ALL, .byPosition ⟨idx, (twosComp cbs).toNat⟩⟩)
    ∧ (twosComp cbs < 0 →
      (ReadRange.decode (encodeContextObjectIdBytes 0 oid
        ++ (encodeContextEnumeratedBytes 1 pid
        ++ (encodeOpeningTagBytes 3
        ++ (encodeApplicationUnsignedBytes idx
        ++ (((0x30 ||| cbs.length) :: cbs) ++ encodeClosingTagBytes 3))))) ⟨0, 18 + cbs.length⟩).1
        = .error (.invalidValue "ReadRange count cannot be negative")) := by
  refine ⟨?_, ?_, ?_⟩
  · rw [readRange_byPosition_decode_shape oid pid idx (0x20 ||| cbs.length) cbs
      ⟨.application .unsignedInt, cbs.length⟩ h1 h2 hpid hidx
      (unsignedTagByte_decode cbs.length hn)]
    have htake := readRange_take_count_at oid pid idx (0x20 ||| cbs.length) cbs hpid hidx
    have hu := decodeUnsignedP_at (encodeContextObjectIdBytes 0 oid
        ++ (encodeContextEnumeratedBytes 1 pid
        ++ (encodeOpeningTagBytes 3
        ++ (encodeApplicationUnsignedBytes idx
        ++ (((0x20 ||| cbs.length) :: cbs) ++ encodeClosingTagBytes 3))))) cbs.length ⟨17, 18 + cbs.length⟩ cbs rfl
      (show 17 + cbs.length ≤ 18 + cbs.length by omega) htake
    have hcount : ReadRange.decodeCount (encodeContextObjectIdBytes 0 oid
        ++ (encodeContextEnumeratedBytes 1 pid
        ++ (encodeOpeningTagBytes 3
        ++ (encodeApplicationUnsignedBytes idx
        ++ (((0x20 ||| cbs.length) :: cbs) ++ encodeClosingTagBytes 3)))))
        ⟨.application .unsignedInt, cbs.length⟩ ⟨17, 18 + cbs.length⟩
        = (.ok (beVal cbs % 4294967296), ⟨17 + cbs.length, 18 + cbs.length⟩) := by
      rw [ReadRange.decodeCount]
      simp only [hu, bindP_ok]
    rw [hcount, bindP_ok,
      readRange_closing_at oid pid idx (0x20 ||| cbs.length) cbs hpid hidx, bindP_ok]
  · intro hge
    rw [readRange_byPosition_decode_shape oid pid idx (0x30 ||| cbs.length) cbs
      ⟨.application .signedInt, cbs.length⟩ h1 h2 hpid hidx
      (signedTagByte_decode cbs.length hn)]
    have htake := readRange_take_count_at oid pid idx (0x30 ||| cbs.length) cbs hpid hidx
    have hu := decodeSignedP_at (encodeContextObjectIdBytes 0 oid
        ++ (encodeContextEnumeratedBytes 1 pid
        ++ (encodeOpeningTagBytes 3
        ++ (encodeApplicationUnsignedBytes idx
        ++ (((0x30 ||| cbs.length) :: cbs) ++ encodeClosingTagBytes 3))))) cbs.length ⟨17, 18 + cbs.length⟩ cbs rfl
      (show 17 + cbs.length ≤ 18 + cbs.length by omega) htake
    have hcount : ReadRange.decodeCount (encodeContextObjectIdBytes 0 oid
        ++ (encodeContextEnumeratedBytes 1 pid
        ++ (encodeOpeningTagBytes 3
        ++ (encodeApplicationUnsignedBytes idx
        ++ (((0x30 ||| cbs.length) :: cbs) ++ encodeClosingTagBytes 3)))))
        ⟨.application .signedInt, cbs.length⟩ ⟨17, 18 + cbs.length⟩
        = (.ok (twosComp cbs).toNat, ⟨17 + cbs.length, 18 + cbs.length⟩) := by
      rw [ReadRange.decodeCount]
      simp only [hu, bindP_ok]
      rw [if_neg (by omega)]
    rw [hcount, bindP_ok,
      readRange_closing_at oid pid idx (0x30 ||| cbs.length) cbs hpid hidx, bindP_ok]
  · intro hlt
    rw [readRange_byPosition_decode_shape oid pid idx (0x30 ||| cbs.length) cbs
      ⟨.application .signedInt, cbs.length⟩ h1 h2 hpid hidx
      (signedTagByte_decode cbs.length hn)]
    have htake := readRange_take_count_at oid pid idx (0x30 ||| cbs.length) cbs hpid hidx
    have hu := decodeSignedP_at (encodeContextObjectIdBytes 0 oid
        ++ (encodeContextEnumeratedBytes 1 pid
        ++ (encodeOpeningTagBytes 3
        ++ (encodeApplicationUnsignedBytes idx
        ++ (((0x30 ||| cbs.length) :: cbs) ++ encodeClosingTagBytes 3))))) cbs.length ⟨17, 18 + cbs.length⟩ cbs rfl
      (show 17 + cbs.length ≤ 18 + cbs.length by omega) htake
    have hcount : ReadRange.decodeCount (encodeContextObjectIdBytes 0 oid
        ++ (encodeContextEnumeratedBytes 1 pid
        ++ (encodeOpeningTagBytes 3
        ++ (encodeApplicationUnsignedBytes idx
        ++ (((0x30 ||| cbs.length) :: cbs) ++ encodeClosingTagBytes 3)))))
        ⟨.application .signedInt, cbs.length⟩ ⟨17, 18 + cbs.length⟩
        = (.error (.invalidValue "ReadRange count cannot be negative"),
           ⟨17 + cbs.length, 18 + cbs.length⟩) := by
      rw [ReadRange.decodeCount]
      simp only [hu, bindP_ok]
      rw [if_pos hlt]
    rw [hcount, bindP_error]

/-- Witness for C7: a one-byte signed count 0xFF decodes to -1, which the
by-position branch rejects with the typed `InvalidValue` error. -/
theorem c7_count_sign_handling_witness :
    twosComp [255] < 0 ∧
    (ReadRange.decode (encodeContextObjectIdBytes 0 ⟨8, 1⟩
        ++ (encodeContextEnumeratedBytes 1 85
        ++ (encodeOpeningTagBytes 3
        ++ (encodeApplicationUnsignedBytes 0
        ++ (((0x30 ||| [255].length) :: [255]) ++ encodeClosingTagBytes 3))))) ⟨0, 18 + [255].length⟩).1
      = .error (.invalidValue "ReadRange count cannot be negative") :=
  ⟨by decide,
   (c7_count_sign_handling ⟨8, 1⟩ 85 0 [255] (by decide) (by decide) (by decide)
      (by decide) (by decide)).2.2 (by decide)⟩

-- ## ReadRangeItems (`read_range.rs` lines 230-386)

/-- `PropertyId::PropStatusFlags` (the property-id enumeration is not under
`src/`; only its numeric value matters here). Modelled from the spec. -/
def propStatusFlags : PropertyId := 111

/-- `ReadRangeValueType` (`read_range.rs`): the ten value-kind
discriminants. -/
inductive ReadRangeValueType where
  | status
  | bool
  | real
  | enum
  | unsigned
  | signed
  | bits
  | null
  | error
  | delta
  | any
deriving DecidableEq, Repr

/-- `TryFrom<u8> for ReadRangeValueType`: bytes `0..=10`, everything else
refused. -/
def ReadRangeValueType.tryFromU8 (n : Nat) : Option ReadRangeValueType :=
  if n = 0 then some .status
  else if n = 1 then some .bool
  else if n = 2 then some .real
  else if n = 3 then some .enum
  else if n = 4 then some .unsigned
  else if n = 5 then some .signed
  else if n = 6 then some .bits
  else if n = 7 then some .null
  else if n = 8 then some .error
  else if n = 9 then some .delta
  else if n = 10 then some .any
  else none

/-- `ReadRangeValue` (`read_range.rs`): the decoded item value; the real
payload keeps its four big-endian content bytes as a bit pattern. -/
inductive ReadRangeValue where
  | status
  | bool (b : Bool)
  | real (pattern : Nat)
  | enum (v : Nat)
  | unsigned (v : Nat)
  | signed (v : Int)
  | bits
  | null
  | error
  | delta
  | any
deriving DecidableEq, Repr

/-- `ReadRangeItem` (`read_range.rs`). -/
structure ReadRangeItem where
  date : Date
  time : Time
  value : ReadRangeValue
  statusFlags : BitString
deriving DecidableEq, Repr

/-- The `match tag.number` of `ReadRangeItems::next_internal` selecting the
value kind: a context-specific number is mapped through `TryFrom<u8>`
(invalid-variant on failure), any other tag class is refused. -/
def ReadRangeItems.valueTypeOf : V2.TagNumber → Except Error ReadRangeValueType
  | .contextSpecific tn =>
      match ReadRangeValueType.tryFromU8 tn with
      | some vt => .ok vt
      | none => .error (.invalidVariant "ReadRangeValueType" tn)
  | _ => .error (.tagNotSupported "ReadRangeItems next value")

/-- The `match value_type` of `ReadRangeItems::next_internal`: only the real
kind is materialized (four content bytes), every other kind is an
unimplemented failure. -/
def ReadRangeItems.decodeValue (buf : List Nat) (vt : ReadRangeValueType)
    (r : Rdr) : Except Error ReadRangeValue × Rdr :=
  match vt with
  | .real =>
      bindP (V2.readBytes buf 4 r) fun bs r => (.ok (.real (beVal bs)), r)
  | _ => (.error (.unimplemented "ReadRangeValueType"), r)

/-- `ReadRangeItems::next_internal`: date-and-time group under context tag 0,
value group under context tag 1 (inner tag's class picks the value kind),
then the status-flags bit string under context tag 2 — whose declared
length reuses `tag.value` of the inner value tag, exactly as the source
does. -/
def ReadRangeItems.next_internal (buf : List Nat) (r : Rdr) :
    Except Error ReadRangeItem × Rdr :=
  bindP (V2.Tag.decodeExpected buf (.contextSpecificOpening 0)
    "ReadRangeItems next_internal" r) fun _ r =>
  bindP (V2.Tag.decodeExpected buf (.application .date)
    "ReadRangeItems next_internal" r) fun _ r =>
  bindP (Date.decodeP buf r) fun date r =>
  bindP (V2.Tag.decodeExpected buf (.application .time)
    "ReadRangeItems next_internal" r) fun _ r =>
  bindP (Time.decodeP buf r) fun time r =>
  bindP (V2.Tag.decodeExpected buf (.contextSpecificClosing 0)
    "ReadRangeItems next_internal" r) fun _ r =>
  bindP (V2.Tag.decodeExpected buf (.contextSpecificOpening 1)
    "ReadRangeItems next_internal" r) fun _ r =>
  bindP (V2.Tag.decode buf r) fun tag r =>
  bindP ((ReadRangeItems.valueTypeOf tag.number), r) fun valueType r =>
  bindP (ReadRangeItems.decodeValue buf valueType r) fun value r =>
  bindP (V2.Tag.decodeExpected buf (.contextSpecificClosing 1)
    "ReadRangeItems next_internal" r) fun _ r =>
  bindP (V2.Tag.decodeExpected buf (.contextSpecific 2)
    "ReadRangeItems next_internal" r) fun _ r =>
  bindP (BitString.decodeP propStatusFlags tag.value buf r) fun statusFlags r =>
  (.ok ⟨date, time, value, statusFlags⟩, r)

/-- `ReadRangeItems::new_from_buf`: the cursor over a captured item-data
region starts at zero with the region length as its end bound. -/
def ReadRangeItems.new_from_buf (buf : List Nat) : Rdr :=
  ⟨0, buf.length⟩

/-- `Iterator::next` for `ReadRangeItems`: end-of-sequence once the bounded
region is exhausted, otherwise one `next_internal` pull (item or typed
failure) together with the advanced cursor. -/
def ReadRangeItems.next (buf : List Nat) (r : Rdr) :
    Option (Except Error ReadRangeItem × Rdr) :=
  if r.eof then none else some (ReadRangeItems.next_internal buf r)

-- ## Region discipline of the newer decode steps

/-- A decode step keeps the cursor inside the declared region: it never
moves backwards, never past the end bound, and preserves the bound — on
success and on failure alike. -/
def WithinP {α : Type} (m : Rdr → Except Error α × Rdr) : Prop :=
  ∀ r : Rdr, r.index ≤ r.endIdx →
    r.index ≤ (m r).2.index ∧ (m r).2.index ≤ r.endIdx ∧ (m r).2.endIdx = r.endIdx

/-- A decode step reads no byte at or beyond the declared end bound: bytes
appended after the region never change its outcome. -/
def FrameP {α : Type} (m : List Nat → Rdr → Except Error α × Rdr) : Prop :=
  ∀ (buf junk : List Nat) (r : Rdr), r.index ≤ r.endIdx → r.endIdx ≤ buf.length →
    m (buf ++ junk) r = m buf r

/-- Both region-discipline properties bundled. -/
def GoodP {α : Type} (m : List Nat → Rdr → Except Error α × Rdr) : Prop :=
  (∀ buf, WithinP (m buf)) ∧ FrameP m

theorem goodP_pure {α : Type} (x : Except Error α) :
    GoodP (fun _ r => (x, r)) :=
  ⟨fun _ r h => ⟨Nat.le_refl _, h, rfl⟩, fun _ _ _ _ _ => rfl⟩

theorem goodP_congr {α : Type} {m m' : List Nat → Rdr → Except Error α × Rdr}
    (h : ∀ buf r, m buf r = m' buf r) (h' : GoodP m') : GoodP m := by
  constructor
  · intro buf r hr
    rw [h buf r]
    exact h'.1 buf r hr
  · intro buf junk r hr hlen
    rw [h (buf ++ junk) r, h buf r]
    exact h'.2 buf junk r hr hlen

theorem goodP_ite {c : Prop} [Decidable c]
    {α : Type} {m m' : List Nat → Rdr → Except Error α × Rdr}
    (hm : GoodP m) (hm' : GoodP m') :
    GoodP (fun buf r => if c then m buf r else m' buf r) := by
  by_cases h : c
  · simp only [if_pos h]
    exact hm
  · simp only [if_neg h]
    exact hm'

theorem goodP_bindP {α β : Type} {m : List Nat → Rdr → Except Error α × Rdr}
    {k : List Nat → α → Rdr → Except Error β × Rdr}
    (hm : GoodP m) (hk : ∀ a, GoodP (fun buf => k buf a)) :
    GoodP (fun buf r => bindP (m buf r) (k buf)) := by
  constructor
  · intro buf r h
    dsimp only
    obtain ⟨h1, h2, h3⟩ := hm.1 buf r h
    rcases hmr : m buf r with ⟨res, r1⟩
    rw [hmr] at h1 h2 h3
    dsimp only at h1 h2 h3
    cases res with
    | error e =>
        simp only [bindP]
        exact ⟨h1, h2, h3⟩
    | ok a =>
        simp only [bindP]
        obtain ⟨g1, g2, g3⟩ := (hk a).1 buf r1 (by omega)
        dsimp only at g1 g2 g3
        exact ⟨Nat.le_trans h1 g1, by omega, by omega⟩
  · intro buf junk r h hlen
    dsimp only
    rw [hm.2 buf junk r h hlen]
    obtain ⟨h1, h2, h3⟩ := hm.1 buf r h
    rcases hmr : m buf r with ⟨res, r1⟩
    rw [hmr] at h1 h2 h3
    dsimp only at h1 h2 h3
    cases res with
    | error e => simp only [bindP]
    | ok a =>
        simp only [bindP]
        exact (hk a).2 buf junk r1 (by omega) (by omega)

theorem goodP_readByte : GoodP V2.readByte := by
  constructor
  · intro buf r h
    rw [V2.readByte]
    split
    · next hlt => exact ⟨Nat.le_succ _, hlt, rfl⟩
    · exact ⟨Nat.le_refl _, h, rfl⟩
  · intro buf junk r h hlen
    rw [V2.readByte, V2.readByte]
    split
    · next hlt => rw [getD_append_left buf junk r.index (by omega)]
    · rfl

theorem goodP_readBytes (n : Nat) : GoodP (fun buf => V2.readBytes buf n) := by
  constructor
  · intro buf r h
    dsimp only
    rw [V2.readBytes]
    split
    · next hle => exact ⟨Nat.le_add_right _ _, hle, rfl⟩
    · exact ⟨Nat.le_refl _, h, rfl⟩
  · intro buf junk r h hlen
    dsimp only
    rw [V2.readBytes, V2.readBytes]
    split
    · next hle => rw [take_drop_append buf junk r.index n (by omega)]
    · rfl

theorem goodP_decodeTagNumber : GoodP V2.decodeTagNumber := by
  have hk : ∀ byte0 : Nat, GoodP (fun buf r =>
      if isContextSpecific byte0 then
        if isExtendedTagNumber byte0 then
          bindP (V2.readByte buf r) fun num r =>
            ((.ok (.contextSpecific num, byte0) : Except Error (V2.TagNumber × Nat)), r)
        else ((.ok (.contextSpecific (byte0 >>> 4), byte0) :
                Except Error (V2.TagNumber × Nat)), r)
      else
        match ApplicationTagNumber.fromU8 (byte0 >>> 4) with
        | some num => ((.ok (.application num, byte0) :
            Except Error (V2.TagNumber × Nat)), r)
        | none => (.error (.invalidVariant "application tag number" (byte0 >>> 4)), r)) := by
    intro byte0
    apply goodP_ite
    · apply goodP_ite
      · exact goodP_bindP goodP_readByte (fun num => goodP_pure _)
      · exact goodP_pure _
    · rcases hfu : ApplicationTagNumber.fromU8 (byte0 >>> 4) with _ | num <;>
        simp only [hfu] <;> exact goodP_pure _
  exact goodP_congr (fun buf r => rfl) (goodP_bindP goodP_readByte hk)

theorem goodP_tagDecode : GoodP V2.Tag.decode := by
  have hk : ∀ nb : V2.TagNumber × Nat, GoodP (fun buf r =>
      if isExtendedValue nb.2 then
        bindP (V2.readByte buf r) fun b r =>
          if b == 255 then
            bindP (V2.readBytes buf 4 r) fun bs r =>
              ((.ok ⟨nb.1, beVal bs⟩ : Except Error V2.Tag), r)
          else if b == 254 then
            bindP (V2.readBytes buf 2 r) fun bs r =>
              ((.ok ⟨nb.1, beVal bs⟩ : Except Error V2.Tag), r)
          else ((.ok ⟨nb.1, b⟩ : Except Error V2.Tag), r)
      else if isOpeningTag nb.2 then
        match nb.1 with
        | .contextSpecific n => ((.ok ⟨.contextSpecificOpening n, 0⟩ : Except Error V2.Tag), r)
        | _ => ((.ok ⟨nb.1, 0⟩ : Except Error V2.Tag), r)
      else if isClosingTag nb.2 then
        match nb.1 with
        | .contextSpecific n => ((.ok ⟨.contextSpecificClosing n, 0⟩ : Except Error V2.Tag), r)
        | _ => ((.ok ⟨nb.1, 0⟩ : Except Error V2.Tag), r)
      else ((.ok ⟨nb.1, nb.2 &&& 0x07⟩ : Except Error V2.Tag), r)) := by
    intro nb
    rcases nb with ⟨number, byte0⟩
    dsimp only
    apply goodP_ite
    · exact goodP_bindP goodP_readByte (fun b =>
        goodP_ite (goodP_bindP (goodP_readBytes 4) (fun bs => goodP_pure _))
          (goodP_ite (goodP_bindP (goodP_readBytes 2) (fun bs => goodP_pure _))
            (goodP_pure _)))
    · apply goodP_ite
      · cases number <;> exact goodP_pure _
      · apply goodP_ite
        · cases number <;> exact goodP_pure _
        · exact goodP_pure _
  exact goodP_congr (fun buf r => rfl) (goodP_bindP goodP_decodeTagNumber hk)

theorem goodP_tagDecodeExpected (expected : V2.TagNumber) (msg : String) :
    GoodP (fun buf => V2.Tag.decodeExpected buf expected msg) :=
  goodP_congr (fun buf r => rfl)
    (goodP_bindP goodP_tagDecode (fun tag => goodP_ite (goodP_pure _) (goodP_pure _)))

theorem goodP_dateDecodeP : GoodP Date.decodeP :=
  goodP_congr (fun buf r => rfl)
    (goodP_bindP (goodP_readBytes 4) (fun bs => goodP_pure _))

theorem goodP_timeDecodeP : GoodP Time.decodeP :=
  goodP_congr (fun buf r => rfl)
    (goodP_bindP (goodP_readBytes 4) (fun bs => goodP_pure _))

theorem goodP_bitStringDecodeP (pid : PropertyId) (len : Nat) :
    GoodP (fun buf => BitString.decodeP pid len buf) :=
  goodP_congr (fun buf r => rfl)
    (goodP_ite (goodP_pure _)
      (goodP_bindP goodP_readByte (fun ub =>
        goodP_bindP (goodP_readBytes (len - 1)) (fun bs => goodP_pure _))))

theorem goodP_decodeValue (vt : ReadRangeValueType) :
    GoodP (fun buf => ReadRangeItems.decodeValue buf vt) := by
  cases vt <;> first
    | exact goodP_congr (fun buf r => rfl) (goodP_pure _)
    | exact goodP_congr (fun buf r => rfl)
        (goodP_bindP (goodP_readBytes 4) (fun bs => goodP_pure _))

theorem goodP_next_internal : GoodP ReadRangeItems.next_internal := by
  show GoodP (fun buf r => ReadRangeItems.next_internal buf r)
  simp only [ReadRangeItems.next_internal]
  exact goodP_bindP (goodP_tagDecodeExpected _ _) fun _ =>
    goodP_bindP (goodP_tagDecodeExpected _ _) fun _ =>
    goodP_bindP goodP_dateDecodeP fun date =>
    goodP_bindP (goodP_tagDecodeExpected _ _) fun _ =>
    goodP_bindP goodP_timeDecodeP fun time =>
    goodP_bindP (goodP_tagDecodeExpected _ _) fun _ =>
    goodP_bindP (goodP_tagDecodeExpected _ _) fun _ =>
    goodP_bindP goodP_tagDecode fun tag =>
    goodP_bindP (goodP_pure _) fun valueType =>
    goodP_bindP (goodP_decodeValue _) fun value =>
    goodP_bindP (goodP_tagDecodeExpected _ _) fun _ =>
    goodP_bindP (goodP_tagDecodeExpected _ _) fun _ =>
    goodP_bindP (goodP_bitStringDecodeP _ _) fun statusFlags =>
    goodP_pure _

/-- **C8.** For every bounded item-data region (the cursor
`ReadRangeItems::new_from_buf` establishes, or any later in-region
position), a pull on the `ReadRangeItems` iterator returns the
end-of-sequence signal exactly when the region is exhausted, otherwise a
parsed item or a typed decode failure whose cursor never moves backwards
nor past the region end; and bytes lying outside the region never
influence the pull, even when the region bytes are malformed. -/
theorem c8_items_iterator_bounded (buf junk : List Nat) (r : Rdr)
    (hok : r.index ≤ r.endIdx) (hlen : r.endIdx ≤ buf.length) :
    (ReadRangeItems.next buf r = none ↔ r.eof = true)
    ∧ (r.eof = false →
        ReadRangeItems.next buf r = some (ReadRangeItems.next_internal buf r)
        ∧ r.index ≤ (ReadRangeItems.next_internal buf r).2.index
        ∧ (ReadRangeItems.next_internal buf r).2.index ≤ r.endIdx
        ∧ (ReadRangeItems.next_internal buf r).2.endIdx = r.endIdx)
    ∧ ReadRangeItems.next (buf ++ junk) r = ReadRangeItems.next buf r := by
  refine ⟨?_, ?_, ?_⟩
  · rw [ReadRangeItems.next]
    by_cases he : r.eof
    · simp [he]
    · simp [he]
  · intro he
    rw [ReadRangeItems.next, he]
    obtain ⟨h1, h2, h3⟩ := goodP_next_internal.1 buf r hok
    exact ⟨rfl, h1, h2, h3⟩
  · rw [ReadRangeItems.next, ReadRangeItems.next]
    by_cases he : r.eof
    · simp [he]
    · simp only [he, Bool.false_eq_true, if_false]
      rw [goodP_next_internal.2 buf junk r hok hlen]

/-- Witness for C8: over the one-byte region `[14]` a first pull is a
decode failure (not end-of-sequence), the cursor stays inside the region,
and appending junk bytes beyond the region changes nothing. -/
theorem c8_items_iterator_bounded_witness :
    (ReadRangeItems.next [14] (ReadRangeItems.new_from_buf [14]) = none
      ↔ (ReadRangeItems.new_from_buf [14]).eof = true)
    ∧ ((ReadRangeItems.new_from_buf [14]).eof = false →
        ReadRangeItems.next [14] (ReadRangeItems.new_from_buf [14])
          = some (ReadRangeItems.next_internal [14] (ReadRangeItems.new_from_buf [14]))
        ∧ (ReadRangeItems.new_from_buf [14]).index
            ≤ (ReadRangeItems.next_internal [14] (ReadRangeItems.new_from_buf [14])).2.index
        ∧ (ReadRangeItems.next_internal [14] (ReadRangeItems.new_from_buf [14])).2.index
            ≤ (ReadRangeItems.new_from_buf [14]).endIdx
        ∧ (ReadRangeItems.next_internal [14] (ReadRangeItems.new_from_buf [14])).2.endIdx
            = (ReadRangeItems.new_from_buf [14]).endIdx)
    ∧ ReadRangeItems.next ([14] ++ [9, 9]) (ReadRangeItems.new_from_buf [14])
        = ReadRangeItems.next [14] (ReadRangeItems.new_from_buf [14]) :=
  c8_items_iterator_bounded [14] [9, 9] (ReadRangeItems.new_from_buf [14])
    (by decide) (by decide)

-- ## ReadRangeAck (`read_range.rs` lines 62-163) and item encoding

/-- The value block of `ReadRangeItems::encode`: only the real kind is
implemented; every other kind hits `todo!()`, a process abort. -/
def ReadRangeValue.encodeBodyBytes : ReadRangeValue → Except Error (List Nat)
  | .real pattern =>
      .ok (V2.Tag.encodeBytes ⟨.contextSpecific 2, 4⟩ ++ be32 pattern)
  | _ => .error (.panicked "not yet implemented")

/-- One item of `ReadRangeItems::encode`: date-and-time group under context
tag 0, the value group under context tag 1, then the status flags as a
context-2 bit string. -/
def ReadRangeItem.encodeBytes (item : ReadRangeItem) : Except Error (List Nat) :=
  (ReadRangeValue.encodeBodyBytes item.value).map fun valueBytes =>
    encodeOpeningTagBytes 0
    ++ V2.Tag.encodeBytes ⟨.application .date, 4⟩ ++ item.date.encodeBytes
    ++ V2.Tag.encodeBytes ⟨.application .time, 4⟩ ++ item.time.encodeBytes
    ++ encodeClosingTagBytes 0
    ++ encodeOpeningTagBytes 1 ++ valueBytes ++ encodeClosingTagBytes 1
    ++ item.statusFlags.encodeContextBytes 2

/-- `ReadRangeItems::encode` over the item list. -/
def ReadRangeItems.encodeBytes : List ReadRangeItem → Except Error (List Nat)
  | [] => .ok []
  | item :: rest =>
      match item.encodeBytes, ReadRangeItems.encodeBytes rest with
      | .ok bs, .ok rbs => .ok (bs ++ rbs)
      | .error e, _ => .error e
      | _, .error e => .error e

/-- `ReadRangeAck` (`read_range.rs`): `items` is the encode-side item list,
`itemData` the decode-side captured item-data region. -/
structure ReadRangeAck where
  objectId : ObjectId
  propertyId : PropertyId
  arrayIndex : Nat
  resultFlags : BitString
  itemCount : Nat
  items : List ReadRangeItem
  itemData : List Nat
deriving DecidableEq, Repr

/-- `ReadRangeAck::encode`, as the appended bytes: the confirmed
service-choice byte for ReadRange (26), context tag 0 object id, context
tag 1 property id, optional context tag 2 array index, context tag 3
result flags, context tag 4 item count, then the item data between opening
and closing tags 5. -/
def ReadRangeAck.encodeBytes (v : ReadRangeAck) : Except Error (List Nat) :=
  (ReadRangeItems.encodeBytes v.items).map fun itemBytes =>
    [26]
    ++ encodeContextObjectIdBytes 0 v.objectId
    ++ encodeContextEnumeratedBytes 1 v.propertyId
    ++ (if v.arrayIndex ≠ BACNET_ARRAY_ALL
        then encodeContextUnsignedBytes 2 v.arrayIndex else [])
    ++ v.resultFlags.encodeContextBytes 3
    ++ encodeContextUnsignedBytes 4 v.itemCount
    ++ encodeOpeningTagBytes 5 ++ itemBytes ++ encodeClosingTagBytes 5

/-- Modelled from the spec: the scan part of `get_tagged_body_for_tag`
(`common/helper.rs`, not under `src/`): decode tags, tracking the nesting
depth of the wrapping tag number and skipping each data tag's declared
content, until the matching closing tag; the body is the byte region
between the opening and closing tags. -/
def getTaggedBodyScan (buf : List Nat) (tagnum startIdx counter : Nat)
    (r : Rdr) : Except Error (List Nat) × Rdr :=
  match h : V2.Tag.decode buf r with
  | (.error e, r1) => (.error e, r1)
  | (.ok tag, r1) =>
    if tag.number = .contextSpecificOpening tagnum then
      getTaggedBodyScan buf tagnum startIdx (counter + 1) r1
    else if tag.number = .contextSpecificClosing tagnum then
      if counter = 0 then
        (.ok ((buf.drop startIdx).take (r1.index - 1 - startIdx)), r1)
      else
        getTaggedBodyScan buf tagnum startIdx (counter - 1) r1
    else
      match h2 : V2.readBytes buf tag.value r1 with
      | (.error e, r2) => (.error e, r2)
      | (.ok _, r2) => getTaggedBodyScan buf tagnum startIdx counter r2
termination_by r.endIdx - r.index
decreasing_by
  · have ha := tagDecodeV2_okAdv buf r tag r1 h
    omega
  · have ha := tagDecodeV2_okAdv buf r tag r1 h
    omega
  · have ha := tagDecodeV2_okAdv buf r tag r1 h
    have hb := readBytesV2_ok buf tag.value h2
    omega

/-- Modelled from the spec: `get_tagged_body_for_tag` — the expected
opening tag, then the scan. -/
def getTaggedBodyForTag (buf : List Nat) (tagnum : Nat) (msg : String)
    (r : Rdr) : Except Error (List Nat) × Rdr :=
  bindP (V2.Tag.decodeExpected buf (.contextSpecificOpening tagnum) msg r)
    fun _ r => getTaggedBodyScan buf tagnum r.index 0 r

/-- `ReadRangeAck::decode`: context tag 0 object id, context tag 1 property
id, an optional context tag 2 array index probe, context tag 3 result
flags, context tag 4 item count, then — unless the cursor is already
exhausted — the item-data region between tags 5. The decoded ack carries
an empty encode-side item list (`ReadRangeItems::new_from_buf`). Note the
decode never reads the service-choice byte its own encode writes first. -/
def ReadRangeAck.decode (buf : List Nat) (r : Rdr) :
    Except Error ReadRangeAck × Rdr :=
  bindP (V2.Tag.decodeExpected buf (.contextSpecific 0)
    "ReadRangeAck decode object_id" r) fun tag r =>
  bindP (ObjectId.decodeP buf tag.value r) fun objectId r =>
  bindP (decodeContextPropertyId buf 1 "ReadRangeAck decode property_id" r)
    fun propertyId r =>
  bindP (V2.Tag.decode buf r) fun tag0 r =>
  bindP (if tag0.number = .contextSpecific 2 then
      bindP (decodeUnsignedP buf tag0.value r) fun v r =>
      bindP (V2.Tag.decode buf r) fun tag1 r =>
        ((.ok (v % 4294967296, tag1) : Except Error (Nat × V2.Tag)), r)
    else ((.ok (BACNET_ARRAY_ALL, tag0) : Except Error (Nat × V2.Tag)), r))
    fun aiTag r =>
  bindP (V2.Tag.expectNumber aiTag.2 "ReadRangeAck decode result_flag"
    (.contextSpecific 3), r) fun _ r =>
  bindP (BitString.decodeP propertyId aiTag.2.value buf r) fun resultFlags r =>
  bindP (V2.Tag.decodeExpected buf (.contextSpecific 4)
    "ReadRangeAck decode item_count" r) fun tagc r =>
  bindP (decodeUnsignedP buf tagc.value r) fun itemCount r =>
  bindP (if r.eof then ((.ok ([] : List Nat)), r)
         else getTaggedBodyForTag buf 5 "ReadRangeAck decode item_data" r)
    fun itemData r =>
  (.ok ⟨objectId, propertyId, aiTag.1, resultFlags,
        itemCount % 18446744073709551616, [], itemData⟩, r)

/-- Four big-endian bytes of a value below `2^31` decode back to it under
the two's-complement reading. -/
theorem twosComp_be32 (c : Nat) (h : c < 2147483648) :
    twosComp (be32 c) = (c : Int) := by
  have hl : (be32 c).length = 4 := rfl
  have hm : c % 4294967296 = c := Nat.mod_eq_of_lt (by omega)
  have hp : (2 : Nat) ^ (8 * (be32 c).length) = 4294967296 := by
    rw [hl]
    norm_num
  simp only [twosComp, beVal_be32, hm, hp]
  rw [if_pos (by omega)]

/-- For a count below `2^31`, `encode_application_signed` of the `u32 as
i32` cast emits the signed-integer tag byte `0x34` and the four big-endian
count bytes. -/
theorem encodeApplicationSignedBytes_u32 (c : Nat) (h : c < 2147483648) :
    encodeApplicationSignedBytes (u32AsI32 c) = 52 :: be32 c := by
  have hm : c % 4294967296 = c := Nat.mod_eq_of_lt (by omega)
  rw [encodeApplicationSignedBytes, u32AsI32, hm]
  rw [if_pos (by omega)]
  have hq : ((c : Int) % 4294967296) = (c : Int) :=
    Int.emod_eq_of_lt (by omega) (by omega)
  rw [hq]
  have hemod : ((c : Int)).emod 4294967296 = (c : Int) :=
    Int.emod_eq_of_lt (by omega) (by omega)
  rw [hemod]
  have htn : ((c : Int)).toNat = c := Int.toNat_natCast c
  rw [htn]
  rfl

/-- Decoding an encoded by-position request that carries an explicit array
index runs the whole grammar — object id, property id, context tag 2 array
index, opening tag 3, unsigned index, signed count, closing tag 3 — and
reproduces every field. -/
theorem readRange_byPosition_withIndex_decode (oid : ObjectId)
    (pid arr idx cnt : Nat)
    (h1 : oid.objectType < 1024) (h2 : oid.id < 4194304)
    (hpid : pid < 4294967296) (harr : arr < 4294967296)
    (hidx : idx < 4294967296) (hcnt : cnt < 2147483648) :
    ReadRange.decode
      (encodeContextObjectIdBytes 0 oid
        ++ (encodeContextEnumeratedBytes 1 pid
        ++ (encodeContextUnsignedBytes 2 arr
        ++ (encodeOpeningTagBytes 3
        ++ (encodeApplicationUnsignedBytes idx
        ++ ((52 :: be32 cnt) ++ encodeClosingTagBytes 3))))))
      ⟨0, 27⟩
      = (.ok ⟨oid, pid, arr, .byPosition ⟨idx, cnt⟩⟩, ⟨27, 27⟩) := by
  set buf := encodeContextObjectIdBytes 0 oid
    ++ (encodeContextEnumeratedBytes 1 pid
    ++ (encodeContextUnsignedBytes 2 arr
    ++ (encodeOpeningTagBytes 3
    ++ (encodeApplicationUnsignedBytes idx
    ++ ((52 :: be32 cnt) ++ encodeClosingTagBytes 3))))) with hbufdef
  have e1 : encodeContextObjectIdBytes 0 oid = 12 :: be32 oid.toU32 := by
    simp [encodeContextObjectIdBytes, V2.Tag.encodeBytes]
  have e2 : encodeContextEnumeratedBytes 1 pid = 28 :: be32 pid := by
    simp [encodeContextEnumeratedBytes, encodeContextUnsignedBytes,
      V2.Tag.encodeBytes, Nat.mod_eq_of_lt hpid]
  have e2b : encodeContextUnsignedBytes 2 arr = 44 :: be32 arr := by
    simp [encodeContextUnsignedBytes, V2.Tag.encodeBytes, Nat.mod_eq_of_lt harr]
  have e3 : encodeOpeningTagBytes 3 = [62] := by
    simp [encodeOpeningTagBytes, V2.Tag.encodeBytes]
  have e4 : encodeApplicationUnsignedBytes idx = 36 :: be32 idx := by
    simp [encodeApplicationUnsignedBytes, V2.Tag.encodeBytes,
      ApplicationTagNumber.toU8, Nat.mod_eq_of_lt hidx]
  have e5 : encodeClosingTagBytes 3 = [63] := by
    simp [encodeClosingTagBytes, V2.Tag.encodeBytes]
  have hbuf : buf = (12 :: be32 oid.toU32)
      ++ ((28 :: be32 pid) ++ ((44 :: be32 arr) ++ ([62]
      ++ ((36 :: be32 idx) ++ ((52 :: be32 cnt) ++ [63]))))) := by
    rw [hbufdef, e1, e2, e2b, e3, e4, e5]
  have take4_be32 : ∀ (v : Nat) (rest : List Nat), (be32 v ++ rest).take 4 = be32 v := by
    intro v rest
    rw [show (4 : Nat) = (be32 v).length from rfl, List.take_left]
  have hA : decodeContextObjectId buf 0 "ReadRange decode object_id" ⟨0, 27⟩
      = (.ok oid, ⟨5, 27⟩) := by
    apply decodeContextObjectId_at buf 0 _ ⟨0, 27⟩ oid (by omega) ?_ ?_ ?_ h1 h2
    · rw [hbuf]
      simp
    · show 0 + 5 ≤ 27
      omega
    · show (buf.drop (0 + 1)).take 4 = be32 oid.toU32
      rw [hbuf]
      simp only [List.cons_append, List.drop_succ_cons, List.drop_zero, List.append_assoc]
      exact take4_be32 _ _
  have hs5 : buf = (12 :: be32 oid.toU32)
      ++ 28 :: (be32 pid ++ (44 :: (be32 arr ++ (62
      :: (36 :: (be32 idx ++ (52 :: (be32 cnt ++ [63])))))))) := by
    rw [hbuf]
    simp [List.append_assoc]
  have hl5 : (12 :: be32 oid.toU32).length = 5 := by simp [be32]
  have hs6 : buf = ((12 :: be32 oid.toU32) ++ [28])
      ++ (be32 pid ++ (44 :: (be32 arr ++ (62
      :: (36 :: (be32 idx ++ (52 :: (be32 cnt ++ [63])))))))) := by
    rw [hbuf]
    simp [List.append_assoc]
  have hl6 : ((12 :: be32 oid.toU32) ++ [28]).length = 6 := by simp [be32]
  have hB : decodeContextPropertyId buf 1 "ReadRange decode property_id" ⟨5, 27⟩
      = (.ok pid, ⟨10, 27⟩) := by
    apply decodeContextPropertyId_at buf 1 _ ⟨5, 27⟩ pid (by omega) ?_ ?_ ?_ hpid
    · show buf.getD 5 0 = (1 <<< 4) ||| 8 ||| 4
      rw [hs5, ← hl5, getD_append_cons]
      decide
    · show 5 + 5 ≤ 27
      omega
    · show (buf.drop (5 + 1)).take 4 = be32 pid
      rw [hs6, show (5 + 1 : Nat) = ((12 :: be32 oid.toU32) ++ [28]).length from hl6.symm,
        List.drop_left]
      exact take4_be32 _ _
  have hs10 : buf = ((12 :: be32 oid.toU32) ++ (28 :: be32 pid))
      ++ 44 :: (be32 arr ++ (62 :: (36 :: (be32 idx ++ (52 :: (be32 cnt ++ [63])))))) := by
    rw [hbuf]
    simp [List.append_assoc]
  have hl10 : ((12 :: be32 oid.toU32) ++ (28 :: be32 pid)).length = 10 := by simp [be32]
  have hTag0 : V2.Tag.decode buf ⟨10, 27⟩
      = (.ok ⟨.contextSpecific 2, 4⟩, ⟨11, 27⟩) := by
    apply tagDecodeV2_single buf ⟨10, 27⟩ 44 _ ?_ ?_ (by decide)
    · show buf.getD 10 0 = 44
      rw [hs10, ← hl10, getD_append_cons]
    · show 10 < 27
      omega
  have hs11 : buf = (((12 :: be32 oid.toU32) ++ (28 :: be32 pid)) ++ [44])
      ++ (be32 arr ++ (62 :: (36 :: (be32 idx ++ (52 :: (be32 cnt ++ [63])))))) := by
    rw [hbuf]
    simp [List.append_assoc]
  have hl11 : ((((12 :: be32 oid.toU32) ++ (28 :: be32 pid)) ++ [44])).length = 11 := by
    simp [be32]
  have hArr : decodeUnsignedP buf 4 ⟨11, 27⟩
      = (.ok (beVal (be32 arr)), ⟨15, 27⟩) := by
    apply decodeUnsignedP_at buf 4 ⟨11, 27⟩ (be32 arr) rfl ?_ ?_
    · show 11 + 4 ≤ 27
      omega
    · show (buf.drop 11).take 4 = be32 arr
      rw [hs11]
      have hdrop := List.drop_left
        (((12 :: be32 oid.toU32) ++ (28 :: be32 pid)) ++ [44])
        (be32 arr ++ (62 :: (36 :: (be32 idx ++ (52 :: (be32 cnt ++ [63]))))))
      rw [hl11] at hdrop
      rw [hdrop]
      exact take4_be32 _ _
  have hs15 : buf = ((((12 :: be32 oid.toU32) ++ (28 :: be32 pid)) ++ [44]) ++ be32 arr)
      ++ 62 :: (36 :: (be32 idx ++ (52 :: (be32 cnt ++ [63])))) := by
    rw [hbuf]
    simp [List.append_assoc]
  have hl15 : (((((12 :: be32 oid.toU32) ++ (28 :: be32 pid)) ++ [44]) ++ be32 arr)).length
      = 15 := by simp [be32]
  have hTag1 : V2.Tag.decode buf ⟨15, 27⟩
      = (.ok ⟨.contextSpecificOpening 3, 0⟩, ⟨16, 27⟩) := by
    apply tagDecodeV2_single buf ⟨15, 27⟩ 62 _ ?_ ?_ (by decide)
    · show buf.getD 15 0 = 62
      rw [hs15, ← hl15, getD_append_cons]
    · show 15 < 27
      omega
  have hs16 : buf = (((((12 :: be32 oid.toU32) ++ (28 :: be32 pid)) ++ [44]) ++ be32 arr)
      ++ [62]) ++ 36 :: (be32 idx ++ (52 :: (be32 cnt ++ [63]))) := by
    rw [hbuf]
    simp [List.append_assoc]
  have hl16 : ((((((12 :: be32 oid.toU32) ++ (28 :: be32 pid)) ++ [44]) ++ be32 arr)
      ++ [62])).length = 16 := by simp [be32]
  have hIdxTag : V2.Tag.decodeExpected buf (.application .unsignedInt)
      "ReadRange decode index" ⟨16, 27⟩
      = (.ok ⟨.application .unsignedInt, 4⟩, ⟨17, 27⟩) := by
    apply tagDecodeExpectedV2_single buf ⟨16, 27⟩ 36 _ _ _ ?_ ?_ (by decide) (by decide)
    · show buf.getD 16 0 = 36
      rw [hs16, ← hl16, getD_append_cons]
    · show 16 < 27
      omega
  have hs17 : buf = ((((((12 :: be32 oid.toU32) ++ (28 :: be32 pid)) ++ [44]) ++ be32 arr)
      ++ [62]) ++ [36]) ++ (be32 idx ++ (52 :: (be32 cnt ++ [63]))) := by
    rw [hbuf]
    simp [List.append_assoc]
  have hl17 : (((((((12 :: be32 oid.toU32) ++ (28 :: be32 pid)) ++ [44]) ++ be32 arr)
      ++ [62]) ++ [36])).length = 17 := by simp [be32]
  have hIdx : decodeUnsignedP buf 4 ⟨17, 27⟩
      = (.ok (beVal (be32 idx)), ⟨21, 27⟩) := by
    apply decodeUnsignedP_at buf 4 ⟨17, 27⟩ (be32 idx) rfl ?_ ?_
    · show 17 + 4 ≤ 27
      omega
    · show (buf.drop 17).take 4 = be32 idx
      rw [hs17]
      have hdrop := List.drop_left
        ((((((12 :: be32 oid.toU32) ++ (28 :: be32 pid)) ++ [44]) ++ be32 arr)
          ++ [62]) ++ [36])
        (be32 idx ++ (52 :: (be32 cnt ++ [63])))
      rw [hl17] at hdrop
      rw [hdrop]
      exact take4_be32 _ _
  have hs21 : buf = (((((((12 :: be32 oid.toU32) ++ (28 :: be32 pid)) ++ [44]) ++ be32 arr)
      ++ [62]) ++ [36]) ++ be32 idx) ++ 52 :: (be32 cnt ++ [63]) := by
    rw [hbuf]
    simp [List.append_assoc]
  have hl21 : ((((((((12 :: be32 oid.toU32) ++ (28 :: be32 pid)) ++ [44]) ++ be32 arr)
      ++ [62]) ++ [36]) ++ be32 idx)).length = 21 := by simp [be32]
  have hTagC : V2.Tag.decode buf ⟨21, 27⟩
      = (.ok ⟨.application .signedInt, 4⟩, ⟨22, 27⟩) := by
    apply tagDecodeV2_single buf ⟨21, 27⟩ 52 _ ?_ ?_ (by decide)
    · show buf.getD 21 0 = 52
      rw [hs21, ← hl21, getD_append_cons]
    · show 21 < 27
      omega
  have hs22 : buf = ((((((((12 :: be32 oid.toU32) ++ (28 :: be32 pid)) ++ [44]) ++ be32 arr)
      ++ [62]) ++ [36]) ++ be32 idx) ++ [52]) ++ (be32 cnt ++ [63]) := by
    rw [hbuf]
    simp [List.append_assoc]
  have hl22 : (((((((((12 :: be32 oid.toU32) ++ (28 :: be32 pid)) ++ [44]) ++ be32 arr)
      ++ [62]) ++ [36]) ++ be32 idx) ++ [52])).length = 22 := by simp [be32]
  have hSigned : decodeSignedP buf 4 ⟨22, 27⟩
      = (.ok (twosComp (be32 cnt)), ⟨26, 27⟩) := by
    apply decodeSignedP_at buf 4 ⟨22, 27⟩ (be32 cnt) rfl ?_ ?_
    · show 22 + 4 ≤ 27
      omega
    · show (buf.drop 22).take 4 = be32 cnt
      rw [hs22]
      have hdrop := List.drop_left
        (((((((12 :: be32 oid.toU32) ++ (28 :: be32 pid)) ++ [44]) ++ be32 arr)
          ++ [62]) ++ [36]) ++ be32 idx ++ [52])
        (be32 cnt ++ [63])
      rw [hl22] at hdrop
      rw [hdrop]
      exact take4_be32 _ _
  have hCount : ReadRange.decodeCount buf ⟨.application .signedInt, 4⟩ ⟨22, 27⟩
      = (.ok cnt, ⟨26, 27⟩) := by
    rw [ReadRange.decodeCount]
    simp only [hSigned, bindP_ok]
    rw [twosComp_be32 cnt hcnt]
    rw [if_neg (by omega)]
    simp
  have hs26 : buf = (((((((((12 :: be32 oid.toU32) ++ (28 :: be32 pid)) ++ [44])
      ++ be32 arr) ++ [62]) ++ [36]) ++ be32 idx) ++ [52]) ++ be32 cnt) ++ 63 :: [] := by
    rw [hbuf]
    simp [List.append_assoc]
  have hl26 : ((((((((((12 :: be32 oid.toU32) ++ (28 :: be32 pid)) ++ [44])
      ++ be32 arr) ++ [62]) ++ [36]) ++ be32 idx) ++ [52]) ++ be32 cnt)).length = 26 := by
    simp [be32]
  have hClose : V2.Tag.decodeExpected buf (.contextSpecificClosing 3)
      "ReadRange decode closing position" ⟨26, 27⟩
      = (.ok ⟨.contextSpecificClosing 3, 0⟩, ⟨27, 27⟩) := by
    apply tagDecodeExpectedV2_single buf ⟨26, 27⟩ 63 _ _ _ ?_ ?_ (by decide) (by decide)
    · show buf.getD 26 0 = 63
      rw [hs26, ← hl26, getD_append_cons]
    · show 26 < 27
      omega
  rw [ReadRange.decode, hA, bindP_ok, hB, bindP_ok, hTag0, bindP_ok]
  rw [if_pos (by decide)]
  rw [hArr, bindP_ok, hTag1, bindP_ok]
  rw [ReadRange.decodeSelector, if_pos (by decide)]
  rw [hIdxTag, bindP_ok, hIdx, bindP_ok, hTagC, bindP_ok]
  rw [beVal_be32 arr, beVal_be32 idx]
  rw [show arr % 4294967296 % 4294967296 = arr by omega]
  rw [show idx % 4294967296 % 4294967296 = idx by omega]
  rw [hCount, bindP_ok, hClose, bindP_ok]

/-- **C4 (counterexample).** Encode-then-decode is not the identity for the
claimed family: `ReadPropertyMultiple::decode` aborts (`unimplemented!()`)
on its own encoding; a ReadRange request with the `All` selector fails
decode with a buffer-bounds error, and with the by-sequence or by-time
selectors fails with a tag-not-supported error; and a `ReadRangeAck`
fails to decode its own encoding, because encode writes a leading
service-choice byte (26) that decode never reads. -/
theorem c4_roundtrip_counterexample :
    (ReadPropertyMultiple.decode
        (ReadPropertyMultiple.encodeBytes ⟨⟨8, 1⟩, [85], BACNET_ARRAY_ALL⟩)
        ⟨0, 12⟩
      = .error (.panicked "not implemented"))
    ∧ ((ReadRange.decode
        (ReadRange.encodeBytes ⟨⟨8, 1⟩, 85, BACNET_ARRAY_ALL, .all⟩)
        ⟨0, (ReadRange.encodeBytes ⟨⟨8, 1⟩, 85, BACNET_ARRAY_ALL, .all⟩).length⟩).1
      = .error (.bufferBounds "read_byte"))
    ∧ ((ReadRange.decode
        (ReadRange.encodeBytes ⟨⟨8, 1⟩, 85, BACNET_ARRAY_ALL, .bySequence ⟨3, 4⟩⟩)
        ⟨0, (ReadRange.encodeBytes
              ⟨⟨8, 1⟩, 85, BACNET_ARRAY_ALL, .bySequence ⟨3, 4⟩⟩).length⟩).1
      = .error (.tagNotSupported "ReadRange opening tag"))
    ∧ ((ReadRange.decode
        (ReadRange.encodeBytes
          ⟨⟨8, 1⟩, 85, BACNET_ARRAY_ALL, .byTime ⟨⟨124, 5, 1, 3⟩, ⟨12, 30, 5, 0⟩, 4⟩⟩)
        ⟨0, (ReadRange.encodeBytes
              ⟨⟨8, 1⟩, 85, BACNET_ARRAY_ALL,
               .byTime ⟨⟨124, 5, 1, 3⟩, ⟨12, 30, 5, 0⟩, 4⟩⟩).length⟩).1
      = .error (.tagNotSupported "ReadRange opening tag"))
    ∧ (ReadRangeAck.encodeBytes ⟨⟨8, 1⟩, 85, BACNET_ARRAY_ALL, ⟨0, [224]⟩, 0, [], []⟩
      = .ok [26, 12, 2, 0, 0, 1, 28, 0, 0, 0, 85, 58, 0, 224, 76, 0, 0, 0, 0, 94, 95])
    ∧ ((ReadRangeAck.decode
        [26, 12, 2, 0, 0, 1, 28, 0, 0, 0, 85, 58, 0, 224, 76, 0, 0, 0, 0, 94, 95]
        ⟨0, 21⟩).1
      = .error (.unexpectedTag "ReadRangeAck decode object_id")) :=
  ⟨rfl, by decide, by decide, by decide, by decide, by decide⟩

/-- **C4 (amended).** For every in-range by-position ReadRange request whose
count fits a non-negative 32-bit signed value (`count < 2^31`), with or
without an explicit array index, encode-then-decode reproduces every
field; the remaining shapes named by the original claim are refuted by
the counterexample. -/
theorem c4_byposition_roundtrip (oid : ObjectId) (pid arr idx cnt : Nat)
    (h1 : oid.objectType < 1024) (h2 : oid.id < 4194304)
    (hpid : pid < 4294967296) (harr : arr < 4294967296)
    (hidx : idx < 4294967296) (hcnt : cnt < 2147483648) :
    (ReadRange.decode
      (ReadRange.encodeBytes ⟨oid, pid, arr, .byPosition ⟨idx, cnt⟩⟩)
      ⟨0, (ReadRange.encodeBytes ⟨oid, pid, arr, .byPosition ⟨idx, cnt⟩⟩).length⟩).1
      = .ok ⟨oid, pid, arr, .byPosition ⟨idx, cnt⟩⟩ := by
  by_cases harrAll : arr = BACNET_ARRAY_ALL
  · subst harrAll
    have henc : ReadRange.encodeBytes
        ⟨oid, pid, BACNET_ARRAY_ALL, .byPosition ⟨idx, cnt⟩⟩
        = encodeContextObjectIdBytes 0 oid
          ++ (encodeContextEnumeratedBytes 1 pid
          ++ (encodeOpeningTagBytes 3
          ++ (encodeApplicationUnsignedBytes idx
          ++ (((52 : Nat) :: be32 cnt) ++ encodeClosingTagBytes 3)))) := by
      rw [ReadRange.encodeBytes]
      dsimp only
      rw [if_neg (by simp)]
      rw [encodeApplicationSignedBytes_u32 cnt hcnt]
      simp [List.append_assoc]
    rw [henc]
    have hL : (encodeContextObjectIdBytes 0 oid
        ++ (encodeContextEnumeratedBytes 1 pid
        ++ (encodeOpeningTagBytes 3
        ++ (encodeApplicationUnsignedBytes idx
        ++ (((52 : Nat) :: be32 cnt) ++ encodeClosingTagBytes 3))))).length
        = 18 + (be32 cnt).length := by
      simp [encodeContextObjectIdBytes, encodeContextEnumeratedBytes,
        encodeContextUnsignedBytes, encodeOpeningTagBytes, encodeClosingTagBytes,
        encodeApplicationUnsignedBytes, V2.Tag.encodeBytes,
        ApplicationTagNumber.toU8, be32]
    rw [hL]
    rw [readRange_byPosition_decode_shape oid pid idx 52 (be32 cnt)
      ⟨.application .signedInt, 4⟩ h1 h2 hpid hidx (by decide)]
    have htake := readRange_take_count_at oid pid idx 52 (be32 cnt) hpid hidx
    simp only [be32_length] at htake ⊢
    have hu := decodeSignedP_at (encodeContextObjectIdBytes 0 oid
        ++ (encodeContextEnumeratedBytes 1 pid
        ++ (encodeOpeningTagBytes 3
        ++ (encodeApplicationUnsignedBytes idx
        ++ (((52 : Nat) :: be32 cnt) ++ encodeClosingTagBytes 3)))))
        4 ⟨17, 18 + 4⟩ (be32 cnt) rfl (show (17 : Nat) + 4 ≤ 18 + 4 by omega) htake
    have hcount : ReadRange.decodeCount (encodeContextObjectIdBytes 0 oid
        ++ (encodeContextEnumeratedBytes 1 pid
        ++ (encodeOpeningTagBytes 3
        ++ (encodeApplicationUnsignedBytes idx
        ++ (((52 : Nat) :: be32 cnt) ++ encodeClosingTagBytes 3)))))
        ⟨.application .signedInt, 4⟩ ⟨17, 18 + 4⟩
        = (.ok cnt, ⟨17 + 4, 18 + 4⟩) := by
      rw [ReadRange.decodeCount]
      simp only [hu, bindP_ok]
      rw [twosComp_be32 cnt hcnt]
      rw [if_neg (by omega)]
      simp
    rw [hcount, bindP_ok]
    have hclose := readRange_closing_at oid pid idx 52 (be32 cnt) hpid hidx
    simp only [be32_length] at hclose
    rw [hclose, bindP_ok]
  · have henc : ReadRange.encodeBytes ⟨oid, pid, arr, .byPosition ⟨idx, cnt⟩⟩
        = encodeContextObjectIdBytes 0 oid
          ++ (encodeContextEnumeratedBytes 1 pid
          ++ (encodeContextUnsignedBytes 2 arr
          ++ (encodeOpeningTagBytes 3
          ++ (encodeApplicationUnsignedBytes idx
          ++ (((52 : Nat) :: be32 cnt) ++ encodeClosingTagBytes 3))))) := by
      rw [ReadRange.encodeBytes]
      dsimp only
      rw [if_pos harrAll]
      rw [encodeApplicationSignedBytes_u32 cnt hcnt]
      simp [List.append_assoc]
    rw [henc]
    have hL : (encodeContextObjectIdBytes 0 oid
        ++ (encodeContextEnumeratedBytes 1 pid
        ++ (encodeContextUnsignedBytes 2 arr
        ++ (encodeOpeningTagBytes 3
        ++ (encodeApplicationUnsignedBytes idx
        ++ (((52 : Nat) :: be32 cnt) ++ encodeClosingTagBytes 3)))))).length = 27 := by
      simp [encodeContextObjectIdBytes, encodeContextEnumeratedBytes,
        encodeContextUnsignedBytes, encodeOpeningTagBytes, encodeClosingTagBytes,
        encodeApplicationUnsignedBytes, V2.Tag.encodeBytes,
        ApplicationTagNumber.toU8, be32]
    rw [hL]
    rw [readRange_byPosition_withIndex_decode oid pid arr idx cnt
      h1 h2 hpid harr hidx hcnt]

/-- Witness for the amended C4: a concrete by-position request with an
explicit array index round-trips. -/
theorem c4_byposition_roundtrip_witness :
    (ReadRange.decode
      (ReadRange.encodeBytes ⟨⟨8, 1⟩, 85, 2, .byPosition ⟨7, 9⟩⟩)
      ⟨0, (ReadRange.encodeBytes ⟨⟨8, 1⟩, 85, 2, .byPosition ⟨7, 9⟩⟩).length⟩).1
      = .ok ⟨⟨8, 1⟩, 85, 2, .byPosition ⟨7, 9⟩⟩ :=
  c4_byposition_roundtrip ⟨8, 1⟩ 85 2 7 9 (by decide) (by decide) (by decide)
    (by decide) (by decide) (by decide)
